import Mathlib

/-!
# CRUD services of Go_some_practice

Shallow embedding of the two HTTP CRUD services of the repository:

* `db_practice/blog_API/main.go`  (echo + GORM on SQLite, resource `Post`),
* `db_practice/gin_list_API/main.go` (gin + sqlx on SQLite, resource `Todo`),

of the script `db_practice/console_CRUD/main.go` (sqlx on SQLite, resource
`Item`) and of the in-memory todo list of
`protocols/graphQL/todo_shit/main.go`.

Every handler is a pure function of the request (path parameter, request
body) and of the store state; it returns the HTTP response and, for the
handlers that may write, the store state after the request.  The handlers
are written against a `Store` record (the `*gorm.DB` / `*sqlx.DB` handle the
Go code receives), so that what they do is stated for every store; the
concrete stores `gorm` and `sqlite` further down give the handle its
relational meaning.

Logging calls (`c.Logger().Errorf`, `log.Printf`) have no effect on the
response or on the store and are left out.
-/

/-! ## strconv -/

namespace strconv

/-- Largest `uint64`. -/
def maxUint64 : Nat := 2 ^ 64 - 1

/-- One round of the digit loop of `ParseUint(s, 10, 64)`: `n` is the value
read so far, `c` the next byte.  A byte outside `'0'..'9'` is an error, and so
is a value that leaves the `uint64` range (`n >= cutoff`, or `n1 < n || n1 >
maxVal` after the wrapping addition). -/
def parseUintDigit (n : Nat) (c : Char) : Option Nat :=
  if '0' ≤ c ∧ c ≤ '9' then
    let d := c.toNat - '0'.toNat
    if n ≥ maxUint64 / 10 + 1 then none
    else
      let n10 := (n * 10) % 2 ^ 64
      let n1 := (n10 + d) % 2 ^ 64
      if n1 < n10 ∨ n1 > maxUint64 then none else some n1
  else none

/-- Digit loop of `ParseUint(s, 10, 64)` over the bytes still to read. -/
def parseUintDigits : Nat → List Char → Option Nat
  | n, [] => some n
  | n, c :: cs =>
    match parseUintDigit n c with
    | none => none
    | some n1 => parseUintDigits n1 cs

/-- The call `strconv.ParseUint(s, 10, 64)`; `none` stands for a non-nil
error.  The empty string is an error. -/
def ParseUint (s : String) : Option Nat :=
  match s.data with
  | [] => none
  | cs => parseUintDigits 0 cs

/-- The call `strconv.Atoi(s)` on a 64-bit platform (`ParseInt(s, 10, 0)`;
the short-string fast path computes the same result): an optional sign, then
`ParseUint` of the rest, then the `int64` range check. -/
def Atoi (s : String) : Option Int :=
  match s.data with
  | [] => none
  | c :: cs =>
    let neg := c = '-'
    let ds := if c = '+' ∨ c = '-' then cs else c :: cs
    match ds with
    | [] => none
    | _ =>
      match parseUintDigits 0 ds with
      | none => none
      | some un =>
        if ¬ neg ∧ un ≥ 2 ^ 63 then none
        else if neg ∧ un > 2 ^ 63 then none
        else some (if neg then - (un : Int) else (un : Int))

/-- Value of a string of decimal digits, most significant digit first. -/
def decimalValue (cs : List Char) : Nat :=
  cs.foldl (fun n c => n * 10 + (c.toNat - '0'.toNat)) 0

/-- The base-10 text of an unsigned 64-bit integer, in the words of the
specification: one or more decimal digits and nothing else (so no sign),
whose value is at most `2^64 - 1`. -/
def IsUint64Text (s : String) : Prop :=
  s.data ≠ [] ∧ (∀ c ∈ s.data, '0' ≤ c ∧ c ≤ '9') ∧ decimalValue s.data ≤ 2 ^ 64 - 1

instance (s : String) : Decidable (IsUint64Text s) := by
  unfold IsUint64Text
  infer_instance

/-- The base-10 text of an unsigned integer of any size: one or more decimal
digits and nothing else. -/
def IsUintText (s : String) : Prop :=
  s.data ≠ [] ∧ ∀ c ∈ s.data, '0' ≤ c ∧ c ≤ '9'

instance (s : String) : Decidable (IsUintText s) := by
  unfold IsUintText
  infer_instance

/-- The base-10 text of a signed 64-bit integer: an optional `+` or `-`, then
one or more decimal digits, the number being within `-2^63 .. 2^63 - 1`. -/
def IsInt64Text (s : String) : Prop :=
  match s.data with
  | [] => False
  | c :: cs =>
    let ds := if c = '+' ∨ c = '-' then cs else c :: cs
    ds ≠ [] ∧ (∀ d ∈ ds, '0' ≤ d ∧ d ≤ '9') ∧
      (if c = '-' then decimalValue ds ≤ 2 ^ 63 else decimalValue ds ≤ 2 ^ 63 - 1)

instance (s : String) : Decidable (IsInt64Text s) := by
  unfold IsInt64Text
  split <;> infer_instance

/-- The number a text of `IsInt64Text` stands for. -/
def int64Value (s : String) : Int :=
  match s.data with
  | [] => 0
  | c :: cs =>
    if c = '-' then - (decimalValue cs : Int)
    else if c = '+' then (decimalValue cs : Int)
    else (decimalValue (c :: cs) : Int)

/-- The digits of `n`, most significant first, put in front of `acc`: the
loop of `formatBits` for base 10, which writes the last digit of `n` and goes
on with `n / 10` until nothing is left.  `fuel` bounds the number of rounds. -/
def itoaDigits : Nat → Nat → List Char → List Char
  | 0, _, acc => acc
  | fuel + 1, n, acc =>
    let acc1 := Char.ofNat ('0'.toNat + n % 10) :: acc
    if n / 10 = 0 then acc1 else itoaDigits fuel (n / 10) acc1

/-- The call `strconv.Itoa(i)`: the decimal digits of `i`, after a `-` when `i`
is negative. -/
def Itoa (i : Int) : String :=
  if i < 0 then String.mk ('-' :: itoaDigits (i.natAbs + 1) i.natAbs [])
  else String.mk (itoaDigits (i.natAbs + 1) i.natAbs [])

end strconv

/-! ## blog_API -/

namespace BlogAPI

/-- The struct `Post`: the embedded `gorm.Model` (`ID`, `CreatedAt`,
`UpdatedAt`, `DeletedAt`) followed by `Title` and `Content`.  Instants are
natural numbers, `0` being the zero `time.Time`; `DeletedAt = none` is the
SQL `NULL` of a row that is not soft-deleted. -/
structure Post where
  ID : Nat
  CreatedAt : Nat
  UpdatedAt : Nat
  DeletedAt : Option Nat
  Title : String
  Content : String
deriving DecidableEq, Repr

/-- The zero value `new(Post)` / `var post Post`. -/
def Post.zero : Post :=
  { ID := 0, CreatedAt := 0, UpdatedAt := 0, DeletedAt := none, Title := "", Content := "" }

/-- A decoded JSON object, as far as `Post` is concerned: for each exported
field of `Post` the value of the matching key, `none` when the object has no
such key (or has it with `null`).  The fields promoted from `gorm.Model`
carry no `json` tag, so they are matched by their Go names.  A decoded `ID`
is a `uint`; the handlers do no arithmetic on it. -/
structure PostJSON where
  ID : Option Nat
  CreatedAt : Option Nat
  UpdatedAt : Option Nat
  DeletedAt : Option Nat
  title : Option String
  content : Option String
deriving DecidableEq, Repr

/-- A request body as `c.Bind` sees it: one that cannot be decoded into a
`Post`, or a JSON object. -/
inductive Body where
  | malformed
  | json (o : PostJSON)
deriving DecidableEq, Repr

/-- The call `c.Bind(&post)`: `none` is a non-nil error; otherwise every key
of the object overwrites the field it names and the other fields of `post`
keep the value they had. -/
def Bind (post : Post) : Body → Option Post
  | .malformed => none
  | .json o =>
    some
      { ID := o.ID.getD post.ID
        CreatedAt := o.CreatedAt.getD post.CreatedAt
        UpdatedAt := o.UpdatedAt.getD post.UpdatedAt
        DeletedAt := match o.DeletedAt with
          | some t => some t
          | none => post.DeletedAt
        Title := o.title.getD post.Title
        Content := o.content.getD post.Content }

/-- The `result.Error` of a `*gorm.DB` call. -/
inductive DBError where
  | ErrRecordNotFound
  | other (msg : String)
deriving DecidableEq, Repr

/-- Outcome of a store call (`result.Error` is nil, or not). -/
inductive Result (α : Type) where
  | ok (a : α)
  | error (e : DBError)
deriving DecidableEq, Repr

/-- The handle `h.DB`, as the handlers use it.  `σ` is the state of the
database.  The two queries return no new state; the three writing calls
return the state after the call. -/
structure Store (σ : Type) where
  /-- The call `h.DB.Find(&posts)`. -/
  Find : σ → Result (List Post)
  /-- The call `h.DB.First(&post, id)`. -/
  First : σ → Nat → Result Post
  /-- The call `h.DB.Create(post)`; the result is `post` as the call leaves it. -/
  Create : σ → Post → Result Post × σ
  /-- The call `h.DB.Save(&post)`; the result is `post` as the call leaves it. -/
  Save : σ → Post → Result Post × σ
  /-- The call `h.DB.Delete(&Post{}, id)`; the result is `RowsAffected`. -/
  Delete : σ → Nat → Result Nat × σ

/-- Body of an HTTP response. -/
inductive Payload where
  | text (msg : String)
  | post (p : Post)
  | posts (ps : List Post)
  | empty
deriving DecidableEq, Repr

/-- An HTTP response: status code and body. -/
structure Response where
  status : Nat
  body : Payload
deriving DecidableEq, Repr

/-- Handler `getAllPosts`. -/
def getAllPosts {σ : Type} (S : Store σ) (s : σ) : Response :=
  match S.Find s with
  | .error _ => ⟨500, .text "Failed to fetch posts"⟩
  | .ok posts => ⟨200, .posts posts⟩

/-- Handler `getPostByID`. -/
def getPostByID {σ : Type} (S : Store σ) (idStr : String) (s : σ) : Response :=
  match strconv.ParseUint idStr with
  | none => ⟨400, .text "Invalid post ID format"⟩
  | some id =>
    match S.First s id with
    | .error .ErrRecordNotFound => ⟨404, .text "Post not found"⟩
    | .error _ => ⟨500, .text "Failed to fetch post"⟩
    | .ok post => ⟨200, .post post⟩

/-- Handler `createPost`. -/
def createPost {σ : Type} (S : Store σ) (body : Body) (s : σ) : Response × σ :=
  match Bind Post.zero body with
  | none => (⟨400, .text "Invalid JSON body"⟩, s)
  | some post =>
    if post.Title = "" ∨ post.Content = "" then
      (⟨400, .text "Title and Content cannot be empty"⟩, s)
    else
      match S.Create s post with
      | (.error _, s1) => (⟨500, .text "Failed to create post"⟩, s1)
      | (.ok post1, s1) => (⟨201, .post post1⟩, s1)

/-- Handler `updatePost`. -/
def updatePost {σ : Type} (S : Store σ) (idStr : String) (body : Body) (s : σ) :
    Response × σ :=
  match strconv.ParseUint idStr with
  | none => (⟨400, .text "Invalid post ID format"⟩, s)
  | some id =>
    match S.First s id with
    | .error .ErrRecordNotFound => (⟨404, .text "Post not found"⟩, s)
    | .error _ => (⟨500, .text "Failed to find post for update"⟩, s)
    | .ok post =>
      match Bind post body with
      | none => (⟨400, .text "Invalid JSON body"⟩, s)
      | some post1 =>
        if post1.Title = "" ∨ post1.Content = "" then
          (⟨400, .text "Title and Content cannot be empty"⟩, s)
        else
          match S.Save s post1 with
          | (.error _, s1) => (⟨500, .text "Failed to update post"⟩, s1)
          | (.ok post2, s1) => (⟨200, .post post2⟩, s1)

/-- Handler `deletePost`. -/
def deletePost {σ : Type} (S : Store σ) (idStr : String) (s : σ) : Response × σ :=
  match strconv.ParseUint idStr with
  | none => (⟨400, .text "Invalid post ID format"⟩, s)
  | some id =>
    match S.Delete s id with
    | (.error _, s1) => (⟨500, .text "Failed to delete post"⟩, s1)
    | (.ok rowsAffected, s1) =>
      if rowsAffected = 0 then (⟨404, .text "Post not found"⟩, s1)
      else (⟨204, .empty⟩, s1)

/-! ### The store behind `h.DB`: GORM on SQLite

The handle is opened on a SQLite file and migrated with `AutoMigrate(&Post{})`:
table `posts`, primary key `id` (`integer PRIMARY KEY AUTOINCREMENT`), columns
`created_at`, `updated_at`, `deleted_at`, `title`, `content`.  Because `Post`
embeds `gorm.Model`, deletion is a soft delete (`deleted_at` is set) and every
query and update only sees the rows whose `deleted_at` is `NULL`.  GORM and
SQLite are libraries outside the repository; the definitions below follow
their documented behaviour.  Exhaustion of the row-id range counts among the
injected failures.  A row id of SQLite is below `2^63`, and `database/sql`
refuses a `uint64` argument with the high bit set, so a lookup by an id of
`2^63` or more ends in a driver error instead of `ErrRecordNotFound`. -/

/-- The five calls the handlers make on the handle. -/
inductive Call where
  | Find | First | Create | Save | Delete
deriving DecidableEq, Repr

/-- A writing call together with the argument the handler handed over. -/
inductive Write where
  | Create (post : Post)
  | Save (post : Post)
  | Delete (id : Nat)
deriving DecidableEq, Repr

/-- State of the database.  `rows` is the table `posts` (soft-deleted rows
included), `seq` the largest row id ever handed out (`sqlite_sequence`).
`faults` lists the calls that fail for a reason of the storage layer, each
with the driver message.  `writes` is a history of the writing calls made on
the handle, in order; no call reads it. -/
structure DB where
  rows : List Post
  seq : Nat
  faults : List (Call × String)
  writes : List Write
deriving DecidableEq, Repr

/-- A row that is not soft-deleted. -/
def live (p : Post) : Bool := p.DeletedAt.isNone

/-- The state once the writing call `w` has been recorded. -/
def DB.logged (db : DB) (w : Write) : DB := { db with writes := db.writes ++ [w] }

/-- The injected failure of a call, if any. -/
def DB.fault (db : DB) (c : Call) : Option String := db.faults.lookup c

/-- Number of live rows with primary key `id`. -/
def DB.liveCount (db : DB) (id : Nat) : Nat := db.rows.countP (fun r => r.ID = id && live r)

/-- An `UPDATE posts SET ... WHERE deleted_at IS NULL AND id = ?` writing all
columns of `p`. -/
def DB.update (db : DB) (p : Post) : DB :=
  { db with rows := db.rows.map (fun r => if r.ID = p.ID ∧ live r then p else r) }

/-- An `UPDATE posts SET deleted_at = ? WHERE id = ? AND deleted_at IS NULL`. -/
def DB.softDelete (db : DB) (now id : Nat) : DB :=
  { db with
    rows := db.rows.map (fun r =>
      if r.ID = id ∧ live r then { r with DeletedAt := some now } else r) }

/-- Largest `ID` among the rows. -/
def maxID : List Post → Nat
  | [] => 0
  | p :: ps => max p.ID (maxID ps)

/-- Row id SQLite picks for an `INSERT` that carries none. -/
def DB.nextID (db : DB) : Nat := max db.seq (maxID db.rows) + 1

/-- An `INSERT INTO posts`: a zero `ID` is replaced by the next row id, a
non-zero `ID` is kept and must be unused; zero `CreatedAt` and `UpdatedAt`
are set to the current time. -/
def DB.insert (db : DB) (now : Nat) (post : Post) : Result Post × DB :=
  let id := if post.ID = 0 then db.nextID else post.ID
  if db.rows.any (fun r => r.ID = id) then
    (.error (.other "UNIQUE constraint failed: posts.id"), db)
  else
    let p : Post :=
      { post with
        ID := id
        CreatedAt := if post.CreatedAt = 0 then now else post.CreatedAt
        UpdatedAt := if post.UpdatedAt = 0 then now else post.UpdatedAt }
    (.ok p, { db with rows := db.rows ++ [p], seq := max db.seq id })

/-- An `INSERT INTO posts ... ON CONFLICT (id) DO UPDATE`, the fallback of
`Save`: a row with the same `ID` has every column but `created_at`
overwritten; with no such row the record is inserted. -/
def DB.upsert (db : DB) (now : Nat) (post : Post) : Result Post × DB :=
  let p : Post :=
    { post with CreatedAt := if post.CreatedAt = 0 then now else post.CreatedAt }
  if db.rows.any (fun r => r.ID = p.ID) then
    (.ok p,
      { db with
        rows := db.rows.map (fun r =>
          if r.ID = p.ID then { p with CreatedAt := r.CreatedAt } else r) })
  else
    (.ok p, { db with rows := db.rows ++ [p], seq := max db.seq p.ID })

/-- The order in which SQLite scans the table: by row id. -/
def byRowid (p q : Post) : Prop := p.ID ≤ q.ID

instance : DecidableRel byRowid := fun p q => Nat.decLe p.ID q.ID

/-- GORM `Find(&posts)`: all live rows, in the order of their row ids (the
query has no `ORDER BY`). -/
def gormFind (db : DB) : Result (List Post) :=
  match db.fault Call.Find with
  | some msg => .error (.other msg)
  | none => .ok ((db.rows.filter live).insertionSort byRowid)

/-- GORM `First(&post, id)` for a `uint64` id: the live row with that primary
key; when there is none, `ErrRecordNotFound` for an id below `2^63` and the
error of the driver for an id of `2^63` or more, which it refuses (a table
holds no row with such an id). -/
def gormFirst (db : DB) (id : Nat) : Result Post :=
  match db.fault Call.First with
  | some msg => .error (.other msg)
  | none =>
    match db.rows.find? (fun r => r.ID = id && live r) with
    | some p => .ok p
    | none =>
      if id ≥ 2 ^ 63 then
        .error (.other "sql: converting argument $1 type: uint64 values with high bit set are not supported")
      else .error .ErrRecordNotFound

/-- GORM `Create(post)` at time `now`. -/
def gormCreate (now : Nat) (db : DB) (post : Post) : Result Post × DB :=
  let db1 := db.logged (Write.Create post)
  match db.fault Call.Create with
  | some msg => (.error (.other msg), db1)
  | none => db1.insert now post

/-- GORM `Save(&post)` at time `now`: a record with a zero primary key is
created; otherwise all columns of the live row with that primary key are
updated (`updated_at` becoming `now`), and when no row was affected the record
is upserted. -/
def gormSave (now : Nat) (db : DB) (post : Post) : Result Post × DB :=
  let db1 := db.logged (Write.Save post)
  match db.fault Call.Save with
  | some msg => (.error (.other msg), db1)
  | none =>
    if post.ID = 0 then db1.insert now post
    else
      let p : Post := { post with UpdatedAt := now }
      if db1.liveCount p.ID = 0 then db1.upsert now p
      else (.ok p, db1.update p)

/-- GORM `Delete(&Post{}, id)` at time `now`: the live rows with that primary
key get `deleted_at = now`; the result is their number. -/
def gormDelete (now : Nat) (db : DB) (id : Nat) : Result Nat × DB :=
  let db1 := db.logged (Write.Delete id)
  match db.fault Call.Delete with
  | some msg => (.error (.other msg), db1)
  | none => (.ok (db1.liveCount id), db1.softDelete now id)

/-- The handle `h.DB` when the wall clock reads `now`. -/
def gorm (now : Nat) : Store DB :=
  { Find := gormFind
    First := gormFirst
    Create := gormCreate now
    Save := gormSave now
    Delete := gormDelete now }

end BlogAPI

/-! ## gin_list_API -/

namespace GinListAPI

/-- The struct `Todo`. -/
structure Todo where
  ID : Int
  Title : String
  Completed : Bool
deriving DecidableEq, Repr

/-- The zero value `var input Todo`. -/
def Todo.zero : Todo := { ID := 0, Title := "", Completed := false }

/-- A decoded JSON object, as far as `Todo` is concerned: the values of the
keys `id`, `title`, `completed`, `none` when the object has no such key (or
has it with `null`). -/
structure TodoJSON where
  id : Option Int
  title : Option String
  completed : Option Bool
deriving DecidableEq, Repr

/-- A request body as `c.ShouldBindJSON` sees it: one that cannot be decoded
into a `Todo` (the empty body included), or a JSON object. -/
inductive Body where
  | malformed
  | json (o : TodoJSON)
deriving DecidableEq, Repr

/-- The call `c.ShouldBindJSON(&input)`: `none` is a non-nil error; otherwise
every key of the object overwrites the field it names.  `Todo` carries no
`binding` tag, so nothing is checked after decoding. -/
def ShouldBindJSON (input : Todo) : Body → Option Todo
  | .malformed => none
  | .json o =>
    some
      { ID := o.id.getD input.ID
        Title := o.title.getD input.Title
        Completed := o.completed.getD input.Completed }

/-- The `err` of a `*sqlx.DB` call. -/
inductive SQLError where
  | ErrNoRows
  | other (msg : String)
deriving DecidableEq, Repr

/-- Outcome of a store call (`err` is nil, or not). -/
inductive Result (α : Type) where
  | ok (a : α)
  | error (e : SQLError)
deriving DecidableEq, Repr

/-- The `sql.Result` of an `Exec`, through its two methods. -/
structure ExecResult where
  LastInsertId : Result Int
  RowsAffected : Result Int
deriving DecidableEq, Repr

/-- The handle `db`, as the routes use it, one field per SQL statement.  `σ`
is the state of the database.  The queries return no new state; the three
`Exec` calls return the state after the call. -/
structure Store (σ : Type) where
  /-- Query `SELECT id, title, completed FROM todos`. -/
  SelectAll : σ → Result (List Todo)
  /-- Query `SELECT id, title, completed FROM todos WHERE id = ?`. -/
  GetTodo : σ → Int → Result Todo
  /-- Query `SELECT id FROM todos WHERE id = ?`. -/
  GetID : σ → Int → Result Int
  /-- Statement `INSERT INTO todos (title, completed) VALUES (?, ?)`. -/
  ExecInsert : σ → String → Bool → Result ExecResult × σ
  /-- Statement `UPDATE todos SET title = ?, completed = ? WHERE id = ?`. -/
  ExecUpdate : σ → String → Bool → Int → Result ExecResult × σ
  /-- Statement `DELETE FROM todos WHERE id = ?`. -/
  ExecDelete : σ → Int → Result ExecResult × σ

/-- Body of an HTTP response; `error msg` is the JSON object with the single
key `error`. -/
inductive Payload where
  | error (msg : String)
  | todo (t : Todo)
  | todos (ts : List Todo)
  | empty
deriving DecidableEq, Repr

/-- An HTTP response: status code and body. -/
structure Response where
  status : Nat
  body : Payload
deriving DecidableEq, Repr

/-- Route `GET /todos`. -/
def getTodos {σ : Type} (S : Store σ) (s : σ) : Response :=
  match S.SelectAll s with
  | .error _ => ⟨500, .error "Failed to fetch todos"⟩
  | .ok todos => ⟨200, .todos todos⟩

/-- Route `POST /todos`. -/
def postTodos {σ : Type} (S : Store σ) (body : Body) (s : σ) : Response × σ :=
  match ShouldBindJSON Todo.zero body with
  | none => (⟨400, .error "invalid input"⟩, s)
  | some input =>
    match S.ExecInsert s input.Title input.Completed with
    | (.error _, s1) => (⟨500, .error "Failed to create todo"⟩, s1)
    | (.ok result, s1) =>
      match result.LastInsertId with
      | .error _ => (⟨500, .error "Failed to get created todo ID"⟩, s1)
      | .ok id =>
        (⟨201, .todo { ID := id, Title := input.Title, Completed := input.Completed }⟩, s1)

/-- Route `GET /todos/:id`. -/
def getTodoByID {σ : Type} (S : Store σ) (idSTR : String) (s : σ) : Response :=
  match strconv.Atoi idSTR with
  | none => ⟨400, .error "invalid todo ID format"⟩
  | some id =>
    match S.GetTodo s id with
    | .error .ErrNoRows => ⟨404, .error "Todo not found"⟩
    | .error _ => ⟨500, .error "Failed to fetch todo"⟩
    | .ok todo => ⟨200, .todo todo⟩

/-- Route `PUT /todos/:id`. -/
def putTodoByID {σ : Type} (S : Store σ) (idSTR : String) (body : Body) (s : σ) :
    Response × σ :=
  match strconv.Atoi idSTR with
  | none => (⟨400, .error "invalid todo ID format"⟩, s)
  | some id =>
    match S.GetID s id with
    | .error .ErrNoRows => (⟨404, .error "Todo not found"⟩, s)
    | .error _ => (⟨500, .error "Failed to check todo existence"⟩, s)
    | .ok _ =>
      match ShouldBindJSON Todo.zero body with
      | none => (⟨400, .error "invalid input"⟩, s)
      | some input =>
        match S.ExecUpdate s input.Title input.Completed id with
        | (.error _, s1) => (⟨500, .error "Failed to update todo"⟩, s1)
        | (.ok result, s1) =>
          if result.RowsAffected = .ok 0 then
            (⟨404, .error "Todo not found after check"⟩, s1)
          else
            match S.GetTodo s1 id with
            | .error _ => (⟨500, .error "Failed to retrieve updated todo"⟩, s1)
            | .ok updatedTodo => (⟨200, .todo updatedTodo⟩, s1)

/-- Route `DELETE /todos/:id`.  The rows-affected count of the `DELETE` is
only logged. -/
def deleteTodoByID {σ : Type} (S : Store σ) (idSTR : String) (s : σ) : Response × σ :=
  match strconv.Atoi idSTR with
  | none => (⟨400, .error "invalid todo ID format"⟩, s)
  | some id =>
    match S.GetID s id with
    | .error .ErrNoRows => (⟨404, .error "Todo not found"⟩, s)
    | .error _ => (⟨500, .error "Failed to check todo existence before delete"⟩, s)
    | .ok _ =>
      match S.ExecDelete s id with
      | (.error _, s1) => (⟨500, .error "Failed to delete todo"⟩, s1)
      | (.ok _, s1) => (⟨204, .empty⟩, s1)

/-! ### The store behind `db`: sqlx on SQLite

Table `todos (id INTEGER PRIMARY KEY AUTOINCREMENT, title TEXT NOT NULL,
completed INTEGER NOT NULL)`, as `main` creates it.  sqlx and SQLite are
libraries outside the repository; the definitions below follow their
documented behaviour.  Exhaustion of the row-id range counts among the
injected failures. -/

/-- The calls the routes make on the handle and on a `sql.Result`. -/
inductive Call where
  | SelectAll | GetTodo | GetID | ExecInsert | ExecUpdate | ExecDelete
  | LastInsertId | RowsAffected
deriving DecidableEq, Repr

/-- A writing statement together with its arguments. -/
inductive Write where
  | Insert (title : String) (completed : Bool)
  | Update (title : String) (completed : Bool) (id : Int)
  | Delete (id : Int)
deriving DecidableEq, Repr

/-- State of the database.  `rows` is the table `todos`, `seq` the largest
row id ever handed out (`sqlite_sequence`).  `faults` lists the calls that
fail for a reason of the storage layer, each with the driver message.
`writes` is a history of the writing statements executed, in order; no call
reads it. -/
structure DB where
  rows : List Todo
  seq : Int
  faults : List (Call × String)
  writes : List Write
deriving DecidableEq, Repr

/-- Largest `ID` among the rows, and at least `0`. -/
def maxID : List Todo → Int
  | [] => 0
  | t :: ts => max t.ID (maxID ts)

/-- Row id SQLite picks for an `INSERT` that carries none. -/
def DB.nextID (db : DB) : Int := max db.seq (maxID db.rows) + 1

/-- The state once the writing statement `w` has been recorded. -/
def DB.logged (db : DB) (w : Write) : DB := { db with writes := db.writes ++ [w] }

/-- The injected failure of a call, if any. -/
def DB.fault (db : DB) (c : Call) : Option String := db.faults.lookup c

/-- A method of `sql.Result` that reports `n`. -/
def DB.report (db : DB) (c : Call) (n : Int) : Result Int :=
  match db.fault c with
  | some msg => .error (.other msg)
  | none => .ok n

/-- The table after `INSERT INTO todos (title, completed)` gave row id `id`. -/
def DB.insertRow (db : DB) (id : Int) (title : String) (completed : Bool) : DB :=
  { db with
    rows := db.rows ++ [{ ID := id, Title := title, Completed := completed }]
    seq := id }

/-- The table after `UPDATE todos SET title = ?, completed = ? WHERE id = ?`. -/
def DB.updateRows (db : DB) (title : String) (completed : Bool) (id : Int) : DB :=
  { db with
    rows := db.rows.map (fun r =>
      if r.ID = id then { r with Title := title, Completed := completed } else r) }

/-- The table after `DELETE FROM todos WHERE id = ?`. -/
def DB.deleteRows (db : DB) (id : Int) : DB :=
  { db with rows := db.rows.filter (fun r => r.ID ≠ id) }

/-- Number of rows with the given id. -/
def DB.count (db : DB) (id : Int) : Int :=
  (db.rows.countP (fun r => r.ID = id) : Nat)

/-- The call `db.Select(&todos, ...)`. -/
def sqliteSelectAll (db : DB) : Result (List Todo) :=
  match db.fault Call.SelectAll with
  | some msg => .error (.other msg)
  | none => .ok db.rows

/-- The call `db.Get(&todo, ...)` for a whole row. -/
def sqliteGetTodo (db : DB) (id : Int) : Result Todo :=
  match db.fault Call.GetTodo with
  | some msg => .error (.other msg)
  | none =>
    match db.rows.find? (fun r => r.ID = id) with
    | some t => .ok t
    | none => .error .ErrNoRows

/-- The call `db.Get(..., "SELECT id ...", id)`. -/
def sqliteGetID (db : DB) (id : Int) : Result Int :=
  match db.fault Call.GetID with
  | some msg => .error (.other msg)
  | none =>
    match db.rows.find? (fun r => r.ID = id) with
    | some t => .ok t.ID
    | none => .error .ErrNoRows

/-- The call `db.Exec(insertSQL, title, completed)`. -/
def sqliteExecInsert (db : DB) (title : String) (completed : Bool) :
    Result ExecResult × DB :=
  let db1 := db.logged (Write.Insert title completed)
  match db.fault Call.ExecInsert with
  | some msg => (.error (.other msg), db1)
  | none =>
    let id := db1.nextID
    (.ok { LastInsertId := db1.report Call.LastInsertId id
           RowsAffected := db1.report Call.RowsAffected 1 },
      db1.insertRow id title completed)

/-- The call `db.Exec(updateSQL, title, completed, id)`. -/
def sqliteExecUpdate (db : DB) (title : String) (completed : Bool) (id : Int) :
    Result ExecResult × DB :=
  let db1 := db.logged (Write.Update title completed id)
  match db.fault Call.ExecUpdate with
  | some msg => (.error (.other msg), db1)
  | none =>
    (.ok { LastInsertId := db1.report Call.LastInsertId db1.seq
           RowsAffected := db1.report Call.RowsAffected (db1.count id) },
      db1.updateRows title completed id)

/-- The call `db.Exec(deleteSQL, id)`. -/
def sqliteExecDelete (db : DB) (id : Int) : Result ExecResult × DB :=
  let db1 := db.logged (Write.Delete id)
  match db.fault Call.ExecDelete with
  | some msg => (.error (.other msg), db1)
  | none =>
    (.ok { LastInsertId := db1.report Call.LastInsertId db1.seq
           RowsAffected := db1.report Call.RowsAffected (db1.count id) },
      db1.deleteRows id)

/-- The handle `db`. -/
def sqlite : Store DB :=
  { SelectAll := sqliteSelectAll
    GetTodo := sqliteGetTodo
    GetID := sqliteGetID
    ExecInsert := sqliteExecInsert
    ExecUpdate := sqliteExecUpdate
    ExecDelete := sqliteExecDelete }

end GinListAPI

/-! ## Two runs, and a second client -/

namespace BlogAPI

/-- Two outcomes of the same store call in two runs that differ at most in
which error other than `ErrRecordNotFound` the store returned. -/
def Result.sameButError {α : Type} : Result α → Result α → Prop
  | .ok a, .ok b => a = b
  | .error .ErrRecordNotFound, .error .ErrRecordNotFound => True
  | .error (.other _), .error (.other _) => True
  | _, _ => False

end BlogAPI

namespace GinListAPI

/-- The handle `db` while a second client works on the same table: the rows
with the id of an `UPDATE` or `DELETE` are removed by the other client just
before the statement runs, so that the statement succeeds and affects no
row.  The queries are those of `sqlite`. -/
def sqliteRaced : Store DB :=
  { SelectAll := sqliteSelectAll
    GetTodo := sqliteGetTodo
    GetID := sqliteGetID
    ExecInsert := sqliteExecInsert
    ExecUpdate := fun db title completed id =>
      sqliteExecUpdate (db.deleteRows id) title completed id
    ExecDelete := fun db id => sqliteExecDelete (db.deleteRows id) id }

end GinListAPI

/-! ## Sequences of requests to the blog post service -/

namespace BlogAPI

/-- A Create or a Delete request, with the time at which it is served. -/
inductive Request where
  | create (now : Nat) (body : Body)
  | delete (now : Nat) (idStr : String)
deriving DecidableEq, Repr

/-- The routes `POST /posts` and `DELETE /posts/:id` of `setupRoutes`, on the
GORM store. -/
def serve (db : DB) : Request → Response × DB
  | .create now body => createPost (gorm now) body db
  | .delete now idStr => deletePost (gorm now) idStr db

/-- A Create request whose body carries the `DeletedAt` key. -/
def Request.setsDeletedAt : Request → Bool
  | .create _ (.json o) => o.DeletedAt.isSome
  | _ => false

/-- The resources created and not later deleted, in the words of the
specification and told from the answers alone: a 201 to a Create adds the
resource of its body, a 204 to a Delete removes the resources with the id of
the request, any other answer changes nothing. -/
def ledger (led : List Post) (req : Request) (resp : Response) : List Post :=
  match req with
  | .create _ _ =>
    if resp.status = 201 then
      match resp.body with
      | .post R => led ++ [R]
      | _ => led
    else led
  | .delete _ idStr =>
    if resp.status = 204 then
      match strconv.ParseUint idStr with
      | some id => led.filter (fun p => p.ID ≠ id)
      | none => led
    else led

/-- What the store and the ledger agree on between two requests: no failure
is injected, the live rows are the resources of the ledger, and no two rows
share an id. -/
def Agrees (db : DB) (led : List Post) : Prop :=
  db.faults = [] ∧ db.rows.filter live = led ∧ (db.rows.map (fun p => p.ID)).Nodup

/-- Serving requests one after the other: the state of the store and the
ledger after the last one. -/
def serveAll : DB → List Post → List Request → DB × List Post
  | db, led, [] => (db, led)
  | db, led, req :: reqs =>
    serveAll (serve db req).2 (ledger led req (serve db req).1) reqs

end BlogAPI

/-! ## console_CRUD -/

namespace ConsoleCRUD

/-- The struct `Item`. -/
structure Item where
  ID : Int
  Name : String
  Quantity : Int
deriving DecidableEq, Repr

/-- The calls `main` makes on the handle and on a `sql.Result`, one per SQL
statement. -/
inductive Call where
  | CreateTable | Insert | SelectAll | Update | GetItem | Delete | Count | RowsAffected
deriving DecidableEq, Repr

/-- State of the database file: the table `items (id INTEGER PRIMARY KEY
AUTOINCREMENT, name TEXT NOT NULL, quantity INTEGER NOT NULL)`, the largest
row id ever handed out, and the calls that fail for a reason of the storage
layer, each with the driver message. -/
structure DB where
  rows : List Item
  seq : Int
  faults : List (Call × String)
deriving DecidableEq, Repr

/-- The program stopped by `log.Fatalf` after the given call failed. -/
structure Fatal where
  call : Call
  err : String
deriving DecidableEq, Repr

/-- What the program prints on the way: the records read after the three
inserts, the rows affected by the `UPDATE` and by the `DELETE` (`none` when
`RowsAffected` fails, which is only a warning), the record read back after
the update, and the final count. -/
structure Output where
  items : List Item
  updated : Option Int
  updatedItem : Item
  deleted : Option Int
  count : Int
deriving DecidableEq, Repr

/-- Outcome of a run of `main`. -/
inductive Run where
  | finished (out : Output) (db : DB)
  | fatal (f : Fatal)
deriving DecidableEq, Repr

/-- Largest `ID` among the rows, and at least `0`. -/
def maxID : List Item → Int
  | [] => 0
  | i :: is => max i.ID (maxID is)

/-- The table after `INSERT INTO items (name, quantity) VALUES (?, ?)`. -/
def DB.insert (db : DB) (name : String) (quantity : Int) : DB :=
  { db with
    rows := db.rows ++ [{ ID := max db.seq (maxID db.rows) + 1, Name := name,
                          Quantity := quantity }]
    seq := max db.seq (maxID db.rows) + 1 }

/-- The table after `UPDATE items SET quantity = ? WHERE id = ?`. -/
def DB.update (db : DB) (quantity : Int) (id : Int) : DB :=
  { db with
    rows := db.rows.map (fun r => if r.ID = id then { r with Quantity := quantity } else r) }

/-- The table after `DELETE FROM items WHERE id = ?`. -/
def DB.delete (db : DB) (id : Int) : DB :=
  { db with rows := db.rows.filter (fun r => r.ID ≠ id) }

/-- Number of rows with the given id. -/
def DB.count (db : DB) (id : Int) : Int :=
  (db.rows.countP (fun r => r.ID = id) : Nat)

/-- The method `result.RowsAffected()` reporting `n`; a failure is `none`. -/
def DB.rowsAffected (db : DB) (n : Int) : Option Int :=
  match db.faults.lookup Call.RowsAffected with
  | some _ => none
  | none => some n

/-- The function `main` from the first statement on, the handle being
connected: create the table, insert three records, read them all, set the
quantity of record 1 to 15 and read it back, delete record 2, count.  Every
failing call but `RowsAffected` ends the program. -/
def main (db : DB) : Run :=
  match db.faults.lookup Call.CreateTable with
  | some e => .fatal ⟨.CreateTable, e⟩
  | none =>
  match db.faults.lookup Call.Insert with
  | some e => .fatal ⟨.Insert, e⟩
  | none =>
  let db1 := ((db.insert "item1" 10).insert "item2" 20).insert "item3" 30
  match db.faults.lookup Call.SelectAll with
  | some e => .fatal ⟨.SelectAll, e⟩
  | none =>
  let items := db1.rows
  match db.faults.lookup Call.Update with
  | some e => .fatal ⟨.Update, e⟩
  | none =>
  let updated := db1.rowsAffected (db1.count 1)
  let db2 := db1.update 15 1
  match db.faults.lookup Call.GetItem with
  | some e => .fatal ⟨.GetItem, e⟩
  | none =>
  match db2.rows.find? (fun r => r.ID = 1) with
  | none => .fatal ⟨.GetItem, "sql: no rows in result set"⟩
  | some updatedItem =>
  match db.faults.lookup Call.Delete with
  | some e => .fatal ⟨.Delete, e⟩
  | none =>
  let deleted := db2.rowsAffected (db2.count 2)
  let db3 := db2.delete 2
  match db.faults.lookup Call.Count with
  | some e => .fatal ⟨.Count, e⟩
  | none =>
    .finished
      { items := items, updated := updated, updatedItem := updatedItem, deleted := deleted,
        count := db3.rows.length }
      db3

end ConsoleCRUD

/-! ## graphQL/todo_shit -/

namespace GraphQLTodo

/-- The struct `Todo`. -/
structure Todo where
  ID : String
  Text : String
  Done : Bool
deriving DecidableEq, Repr

/-- The package variables `todos` and `nextID`.  In every reachable state
`nextID` is one more than the length of `todos` (`reachable_nextID`), and a
slice cannot hold `2^63` elements, so `nextID++` never wraps: the counter is
an unbounded integer here. -/
structure State where
  todos : List Todo
  nextID : Int
deriving DecidableEq, Repr

/-- The initial values of `todos` and `nextID`. -/
def init : State :=
  { todos :=
      [{ ID := "1", Text := "Hello World!", Done := true },
       { ID := "2", Text := "Hello Me!", Done := true },
       { ID := "3", Text := "Hello You!", Done := false }]
    nextID := 4 }

/-- The resolver of the mutation `addTodo`.  The argument is `p.Args["text"]`,
`none` when it is no string (`ok` false); the result is the value returned
(`none` for `nil`) and the state after the call. -/
def addTodo (st : State) : Option String → Option Todo × State
  | some text =>
    let newTodo : Todo := { ID := strconv.Itoa st.nextID, Text := text, Done := false }
    (some newTodo, { todos := st.todos ++ [newTodo], nextID := st.nextID + 1 })
  | none => (none, st)

/-- The states reached from the initial one by `addTodo` mutations. -/
inductive Reachable : State → Prop where
  | init : Reachable init
  | addTodo (st : State) (arg : Option String) :
      Reachable st → Reachable (addTodo st arg).2

end GraphQLTodo

/-! ## Facts about the stores and the handlers -/

namespace BlogAPI

@[simp] theorem DB.logged_rows (db : DB) (w : Write) : (db.logged w).rows = db.rows := rfl

@[simp] theorem DB.logged_seq (db : DB) (w : Write) : (db.logged w).seq = db.seq := rfl

@[simp] theorem DB.logged_faults (db : DB) (w : Write) : (db.logged w).faults = db.faults := rfl

@[simp] theorem DB.logged_writes (db : DB) (w : Write) :
    (db.logged w).writes = db.writes ++ [w] := rfl

@[simp] theorem DB.logged_liveCount (db : DB) (w : Write) (id : Nat) :
    (db.logged w).liveCount id = db.liveCount id := rfl

@[simp] theorem DB.softDelete_faults (db : DB) (now id : Nat) :
    (db.softDelete now id).faults = db.faults := rfl

@[simp] theorem gorm_Find (now : Nat) : (gorm now).Find = gormFind := rfl

@[simp] theorem gorm_First (now : Nat) : (gorm now).First = gormFirst := rfl

@[simp] theorem gorm_Create (now : Nat) : (gorm now).Create = gormCreate now := rfl

@[simp] theorem gorm_Save (now : Nat) : (gorm now).Save = gormSave now := rfl

@[simp] theorem gorm_Delete (now : Nat) : (gorm now).Delete = gormDelete now := rfl

/-- A store without injected failures fails on no call. -/
theorem DB.fault_none (db : DB) (c : Call) (hf : db.faults = []) : db.fault c = none := by
  simp [DB.fault, hf]

/-- Soft-deleting the rows with id `id` leaves no live row with that id. -/
theorem DB.softDelete_liveCount (db : DB) (now id : Nat) :
    (db.softDelete now id).liveCount id = 0 := by
  unfold DB.liveCount DB.softDelete
  rw [List.countP_eq_zero]
  intro r hr
  rw [List.mem_map] at hr
  obtain ⟨q, _, rfl⟩ := hr
  by_cases h : q.ID = id ∧ live q = true
  · rw [if_pos h]
    simp [live]
  · rw [if_neg h]
    simpa using h

/-- A live row with id `id` is counted. -/
theorem DB.liveCount_pos (db : DB) (id : Nat)
    (h : ∃ p ∈ db.rows, p.ID = id ∧ p.DeletedAt = none) : db.liveCount id ≠ 0 := by
  obtain ⟨p, hp, hpid, hpl⟩ := h
  have : 0 < db.liveCount id := by
    unfold DB.liveCount
    rw [List.countP_pos_iff]
    exact ⟨p, hp, by simp [hpid, hpl, live]⟩
  omega

/-- Without a failure injected on `Delete`, the call soft-deletes and reports
the number of live rows it found. -/
theorem gormDelete_ok (now id : Nat) (db : DB) (hf : db.fault Call.Delete = none) :
    gormDelete now db id
      = (.ok (db.liveCount id), (db.logged (Write.Delete id)).softDelete now id) := by
  simp [gormDelete, hf]

/-- The handler `deletePost` once the path id is parsed, in terms of the
outcome of the one store call it makes. -/
theorem deletePost_parsed {σ : Type} (S : Store σ) (idStr : String) (id : Nat) (s : σ)
    (hid : strconv.ParseUint idStr = some id) :
    deletePost S idStr s =
      match S.Delete s id with
      | (.error _, s1) => (⟨500, .text "Failed to delete post"⟩, s1)
      | (.ok rowsAffected, s1) =>
        if rowsAffected = 0 then (⟨404, .text "Post not found"⟩, s1)
        else (⟨204, .empty⟩, s1) := by
  simp [deletePost, hid]

/-- What a successful `INSERT` leaves behind: the row is appended, keeps the
`DeletedAt`, `Title` and `Content` it was given, and no earlier row has its id. -/
theorem DB.insert_ok (db db1 : DB) (now : Nat) (post p : Post)
    (h : db.insert now post = (.ok p, db1)) :
    db1.rows = db.rows ++ [p] ∧ db1.faults = db.faults ∧ db1.writes = db.writes ∧
      p.DeletedAt = post.DeletedAt ∧ p.Title = post.Title ∧ p.Content = post.Content ∧
      ∀ r ∈ db.rows, r.ID ≠ p.ID := by
  unfold DB.insert at h
  by_cases hc : (db.rows.any fun r => r.ID = if post.ID = 0 then db.nextID else post.ID) = true
  · simp [hc] at h
  · simp only [hc, Bool.false_eq_true, if_false, Prod.mk.injEq, Result.ok.injEq] at h
    obtain ⟨hp, hdb⟩ := h
    subst hp
    subst hdb
    refine ⟨rfl, rfl, rfl, rfl, rfl, rfl, ?_⟩
    intro r hr
    simp only [List.any_eq_true, decide_eq_true_eq, not_exists, not_and] at hc
    exact hc r hr

/-- The lookup of a row that was just appended under an unused id. -/
theorem gormFirst_appended (db : DB) (rows : List Post) (p : Post)
    (hf : db.fault Call.First = none) (hrows : db.rows = rows ++ [p])
    (hfresh : ∀ r ∈ rows, r.ID ≠ p.ID) (hlive : p.DeletedAt = none) :
    gormFirst db p.ID = .ok p := by
  unfold gormFirst
  rw [hf, hrows, List.find?_append]
  have hnone : rows.find? (fun r => r.ID = p.ID && live r) = none := by
    rw [List.find?_eq_none]
    intro r hr
    simp [hfresh r hr]
  rw [hnone]
  simp [live, hlive]

/-- The handler `getPostByID` once the path id is parsed and the row found. -/
theorem getPostByID_found {σ : Type} (S : Store σ) (idStr : String) (id : Nat) (s : σ)
    (p : Post) (hid : strconv.ParseUint idStr = some id) (hget : S.First s id = .ok p) :
    getPostByID S idStr s = ⟨200, .post p⟩ := by
  simp [getPostByID, hid, hget]

/-- A 201 of `createPost` on the GORM store: the body was decoded and valid,
and the response carries what the `INSERT` of the bound record returned. -/
theorem createPost_created (now : Nat) (db db1 : DB) (o : PostJSON) (R : Post)
    (hf : db.faults = [])
    (h : createPost (gorm now) (.json o) db = (⟨201, .post R⟩, db1)) :
    ∃ post, Bind Post.zero (.json o) = some post ∧ post.Title ≠ "" ∧ post.Content ≠ "" ∧
      (db.logged (Write.Create post)).insert now post = (.ok R, db1) := by
  refine ⟨_, rfl, ?_⟩
  simp only [createPost, Bind] at h
  split at h
  · simp at h
  · rename_i hv
    rw [not_or] at hv
    refine ⟨hv.1, hv.2, ?_⟩
    simp only [gorm_Create, gormCreate, db.fault_none _ hf] at h
    split at h
    · simp at h
    · rename_i post1 s1 heq
      simp only [Prod.mk.injEq, Response.mk.injEq, Payload.post.injEq, true_and] at h
      obtain ⟨h1, h2⟩ := h
      subst h1
      subst h2
      exact heq

/-- No row id exceeds `maxID`. -/
theorem le_maxID (rows : List Post) : ∀ p ∈ rows, p.ID ≤ maxID rows := by
  induction rows with
  | nil => intro p hp; simp at hp
  | cons r rs ih =>
    intro p hp
    simp only [List.mem_cons] at hp
    simp only [maxID]
    rcases hp with rfl | hp
    · exact le_max_left _ _
    · exact le_trans (ih p hp) (le_max_right _ _)

/-- The row id of the next `INSERT` is used by no row. -/
theorem DB.nextID_fresh (db : DB) : ∀ p ∈ db.rows, p.ID ≠ db.nextID := by
  intro p hp
  have h1 := le_maxID db.rows p hp
  have h2 : maxID db.rows ≤ max db.seq (maxID db.rows) := le_max_right _ _
  unfold DB.nextID
  omega

/-- An `INSERT` records nothing in the history of calls. -/
theorem DB.insert_writes (db : DB) (now : Nat) (post : Post) :
    (db.insert now post).2.writes = db.writes := by
  by_cases hc : (db.rows.any fun r => r.ID = if post.ID = 0 then db.nextID else post.ID) = true
  · simp [DB.insert, hc]
  · simp [DB.insert, hc]

/-- An upsert records nothing in the history of calls. -/
theorem DB.upsert_writes (db : DB) (now : Nat) (post : Post) :
    (db.upsert now post).2.writes = db.writes := by
  by_cases hc : (db.rows.any fun r => r.ID = post.ID) = true
  · simp [DB.upsert, hc]
  · simp [DB.upsert, hc]

/-- An `INSERT` without id succeeds under the next row id. -/
theorem DB.insert_zero (db : DB) (now : Nat) (post : Post) (h0 : post.ID = 0) :
    db.insert now post =
      (.ok { post with
              ID := db.nextID
              CreatedAt := if post.CreatedAt = 0 then now else post.CreatedAt
              UpdatedAt := if post.UpdatedAt = 0 then now else post.UpdatedAt },
        { db with
          rows := db.rows ++ [{ post with
              ID := db.nextID
              CreatedAt := if post.CreatedAt = 0 then now else post.CreatedAt
              UpdatedAt := if post.UpdatedAt = 0 then now else post.UpdatedAt }]
          seq := max db.seq db.nextID }) := by
  have hfresh : (db.rows.any fun r => r.ID = db.nextID) = false := by
    rw [List.any_eq_false]
    intro r hr
    simpa using db.nextID_fresh r hr
  simp [DB.insert, h0, hfresh]

/-- The history after `Save`: the call and its argument are appended, whatever
the outcome. -/
theorem gormSave_writes (now : Nat) (db : DB) (post : Post) :
    (gormSave now db post).2.writes = db.writes ++ [Write.Save post] := by
  unfold gormSave
  cases db.fault Call.Save with
  | some msg => rfl
  | none =>
    simp only
    by_cases h0 : post.ID = 0
    · rw [if_pos h0, DB.insert_writes]; rfl
    · rw [if_neg h0]
      by_cases hl : (db.logged (Write.Save post)).liveCount post.ID = 0
      · rw [if_pos hl, DB.upsert_writes]; rfl
      · rw [if_neg hl]; rfl

/-- The history after `Create`: the call and its argument are appended,
whatever the outcome. -/
theorem gormCreate_writes (now : Nat) (db : DB) (post : Post) :
    (gormCreate now db post).2.writes = db.writes ++ [Write.Create post] := by
  unfold gormCreate
  cases db.fault Call.Create with
  | some msg => rfl
  | none =>
    simp only
    rw [DB.insert_writes]; rfl

/-- An upsert succeeds, and the record it returns has the title and content it
was given. -/
theorem DB.upsert_ok (db : DB) (now : Nat) (post : Post) :
    ∃ p db1, db.upsert now post = (.ok p, db1) ∧ p.Title = post.Title ∧
      p.Content = post.Content := by
  refine ⟨{ post with CreatedAt := if post.CreatedAt = 0 then now else post.CreatedAt },
    (db.upsert now post).2, ?_, rfl, rfl⟩
  by_cases hc : (db.rows.any fun r => r.ID = post.ID) = true
  · simp [DB.upsert, hc]
  · simp [DB.upsert, hc]

/-- Without an injected failure `Save` succeeds, and the record it returns has
the title and content it was given. -/
theorem gormSave_ok (now : Nat) (db : DB) (post : Post) (hf : db.fault Call.Save = none) :
    ∃ p db1, gormSave now db post = (.ok p, db1) ∧ p.Title = post.Title ∧
      p.Content = post.Content := by
  unfold gormSave
  rw [hf]
  simp only
  by_cases h0 : post.ID = 0
  · rw [if_pos h0, DB.insert_zero _ now post h0]
    exact ⟨_, _, rfl, rfl, rfl⟩
  · rw [if_neg h0]
    by_cases hl : (db.logged (Write.Save post)).liveCount post.ID = 0
    · rw [if_pos hl]
      exact DB.upsert_ok _ now _
    · rw [if_neg hl]
      exact ⟨_, _, rfl, rfl, rfl⟩

/-- The lookup reports `ErrRecordNotFound` for an id below `2^63` that has no
live row. -/
theorem gormFirst_absent (db : DB) (id : Nat) (hf : db.fault Call.First = none)
    (hid : id < 2 ^ 63) (h : ∀ p ∈ db.rows, p.ID = id → p.DeletedAt ≠ none) :
    gormFirst db id = .error .ErrRecordNotFound := by
  unfold gormFirst
  rw [hf]
  have hnone : db.rows.find? (fun r => r.ID = id && live r) = none := by
    rw [List.find?_eq_none]
    intro p hp
    simp only [Bool.and_eq_true, decide_eq_true_eq, live, Option.isNone_iff_eq_none, not_and]
    exact h p hp
  simp only [hnone]
  rw [if_neg (by omega)]

/-- The handler `updatePost` once the path id is parsed, the record found and
the body decoded onto it. -/
theorem updatePost_bound {σ : Type} (S : Store σ) (idStr : String) (id : Nat) (s : σ)
    (stored cand : Post) (body : Body) (hid : strconv.ParseUint idStr = some id)
    (hget : S.First s id = .ok stored) (hbind : Bind stored body = some cand) :
    updatePost S idStr body s =
      if cand.Title = "" ∨ cand.Content = "" then
        (⟨400, .text "Title and Content cannot be empty"⟩, s)
      else
        match S.Save s cand with
        | (.error _, s1) => (⟨500, .text "Failed to update post"⟩, s1)
        | (.ok post2, s1) => (⟨200, .post post2⟩, s1) := by
  simp [updatePost, hid, hget, hbind]

/-- The handler `createPost` once the body is decoded. -/
theorem createPost_bound {σ : Type} (S : Store σ) (s : σ) (cand : Post) (body : Body)
    (hbind : Bind Post.zero body = some cand) :
    createPost S body s =
      if cand.Title = "" ∨ cand.Content = "" then
        (⟨400, .text "Title and Content cannot be empty"⟩, s)
      else
        match S.Create s cand with
        | (.error _, s1) => (⟨500, .text "Failed to create post"⟩, s1)
        | (.ok post1, s1) => (⟨201, .post post1⟩, s1) := by
  simp [createPost, hbind]

end BlogAPI

namespace GinListAPI

@[simp] theorem DB.todos_logged_rows (db : DB) (w : Write) : (db.logged w).rows = db.rows := rfl

@[simp] theorem DB.todos_logged_seq (db : DB) (w : Write) : (db.logged w).seq = db.seq := rfl

@[simp] theorem DB.todos_logged_faults (db : DB) (w : Write) : (db.logged w).faults = db.faults := rfl

@[simp] theorem DB.todos_logged_writes (db : DB) (w : Write) :
    (db.logged w).writes = db.writes ++ [w] := rfl

@[simp] theorem DB.deleteRows_faults (db : DB) (id : Int) :
    (db.deleteRows id).faults = db.faults := rfl

@[simp] theorem sqlite_SelectAll : sqlite.SelectAll = sqliteSelectAll := rfl

@[simp] theorem sqlite_GetTodo : sqlite.GetTodo = sqliteGetTodo := rfl

@[simp] theorem sqlite_GetID : sqlite.GetID = sqliteGetID := rfl

@[simp] theorem sqlite_ExecInsert : sqlite.ExecInsert = sqliteExecInsert := rfl

@[simp] theorem sqlite_ExecUpdate : sqlite.ExecUpdate = sqliteExecUpdate := rfl

@[simp] theorem sqlite_ExecDelete : sqlite.ExecDelete = sqliteExecDelete := rfl

/-- A store without injected failures fails on no call. -/
theorem DB.todos_fault_none (db : DB) (c : Call) (hf : db.faults = []) : db.fault c = none := by
  simp [DB.fault, hf]

/-- The existence query finds an id that has a row. -/
theorem sqliteGetID_present (db : DB) (id : Int) (hf : db.fault Call.GetID = none)
    (h : ∃ t ∈ db.rows, t.ID = id) : sqliteGetID db id = .ok id := by
  obtain ⟨t, ht, hid⟩ := h
  unfold sqliteGetID
  rw [hf]
  cases hfind : db.rows.find? (fun r => r.ID = id) with
  | none =>
    rw [List.find?_eq_none] at hfind
    exact absurd hid (by simpa using hfind t ht)
  | some u =>
    have hu := List.find?_some hfind
    simp only [decide_eq_true_eq] at hu
    simp [hu]

/-- The existence query reports `ErrNoRows` for an id that has no row. -/
theorem sqliteGetID_absent (db : DB) (id : Int) (hf : db.fault Call.GetID = none)
    (h : ∀ t ∈ db.rows, t.ID ≠ id) : sqliteGetID db id = .error .ErrNoRows := by
  unfold sqliteGetID
  rw [hf]
  have hnone : db.rows.find? (fun r => r.ID = id) = none := by
    rw [List.find?_eq_none]
    intro t ht
    simpa using h t ht
  simp [hnone]

/-- After `DELETE FROM todos WHERE id = ?` no row has that id. -/
theorem DB.deleteRows_absent (db : DB) (id : Int) :
    ∀ t ∈ (db.deleteRows id).rows, t.ID ≠ id := by
  intro t ht
  simp only [DB.deleteRows, List.mem_filter, decide_eq_true_eq] at ht
  exact ht.2

/-- Without a failure injected on the `DELETE`, it removes the rows. -/
theorem sqliteExecDelete_ok (db : DB) (id : Int) (hf : db.fault Call.ExecDelete = none) :
    (sqliteExecDelete db id).2 = (db.logged (Write.Delete id)).deleteRows id ∧
      ∃ r, (sqliteExecDelete db id).1 = .ok r := by
  simp [sqliteExecDelete, hf]

/-- The route `DELETE /todos/:id` once the path id is parsed and found. -/
theorem deleteTodoByID_found {σ : Type} (S : Store σ) (idSTR : String) (id k : Int) (s : σ)
    (hid : strconv.Atoi idSTR = some id) (hget : S.GetID s id = .ok k) :
    deleteTodoByID S idSTR s =
      match S.ExecDelete s id with
      | (.error _, s1) => (⟨500, .error "Failed to delete todo"⟩, s1)
      | (.ok _, s1) => (⟨204, .empty⟩, s1) := by
  simp [deleteTodoByID, hid, hget]

/-- The route `DELETE /todos/:id` once the path id is parsed and not found. -/
theorem deleteTodoByID_absent {σ : Type} (S : Store σ) (idSTR : String) (id : Int) (s : σ)
    (hid : strconv.Atoi idSTR = some id) (hget : S.GetID s id = .error .ErrNoRows) :
    deleteTodoByID S idSTR s = (⟨404, .error "Todo not found"⟩, s) := by
  simp [deleteTodoByID, hid, hget]

/-- No row id exceeds `maxID`. -/
theorem todos_le_maxID (rows : List Todo) : ∀ t ∈ rows, t.ID ≤ maxID rows := by
  induction rows with
  | nil => intro t ht; simp at ht
  | cons r rs ih =>
    intro t ht
    simp only [List.mem_cons] at ht
    simp only [maxID]
    rcases ht with rfl | ht
    · exact le_max_left _ _
    · exact le_trans (ih t ht) (le_max_right _ _)

/-- The row id of the next `INSERT` is used by no row. -/
theorem DB.todos_nextID_fresh (db : DB) : ∀ t ∈ db.rows, t.ID ≠ db.nextID := by
  intro t ht
  have h1 := todos_le_maxID db.rows t ht
  have h2 : maxID db.rows ≤ max db.seq (maxID db.rows) := le_max_right _ _
  unfold DB.nextID
  omega

/-- The lookup of a row that was just appended under an unused id. -/
theorem sqliteGetTodo_appended (db : DB) (rows : List Todo) (t : Todo)
    (hf : db.fault Call.GetTodo = none) (hrows : db.rows = rows ++ [t])
    (hfresh : ∀ r ∈ rows, r.ID ≠ t.ID) : sqliteGetTodo db t.ID = .ok t := by
  unfold sqliteGetTodo
  rw [hf, hrows, List.find?_append]
  have hnone : rows.find? (fun r => r.ID = t.ID) = none := by
    rw [List.find?_eq_none]
    intro r hr
    simp [hfresh r hr]
  simp [hnone]

/-- The route `GET /todos/:id` once the path id is parsed and the row found. -/
theorem getTodoByID_found {σ : Type} (S : Store σ) (idSTR : String) (id : Int) (s : σ)
    (t : Todo) (hid : strconv.Atoi idSTR = some id) (hget : S.GetTodo s id = .ok t) :
    getTodoByID S idSTR s = ⟨200, .todo t⟩ := by
  simp [getTodoByID, hid, hget]

/-- The route `POST /todos` on a decoded body and the SQLite store without
injected failure: the row is inserted under the next row id and returned
with 201. -/
theorem postTodos_json (db : DB) (o : TodoJSON) (hf : db.faults = []) :
    postTodos sqlite (.json o) db =
      (⟨201, .todo
          { ID := db.nextID, Title := o.title.getD "", Completed := o.completed.getD false }⟩,
        (db.logged (Write.Insert (o.title.getD "") (o.completed.getD false))).insertRow
          db.nextID (o.title.getD "") (o.completed.getD false)) := by
  have hl : ∀ w, (db.logged w).fault Call.LastInsertId = none := fun w =>
    DB.todos_fault_none _ _ (by simpa using hf)
  have hn : ∀ w, (db.logged w).nextID = db.nextID := fun _ => rfl
  simp [postTodos, ShouldBindJSON, Todo.zero, sqliteExecInsert, db.todos_fault_none _ hf,
    DB.report, hl, hn]

end GinListAPI

namespace strconv

/-- One round of the digit loop, without the machine arithmetic. -/
theorem parseUintDigit_eq (n : Nat) (c : Char) :
    parseUintDigit n c =
      if '0' ≤ c ∧ c ≤ '9' then
        if n * 10 + (c.toNat - '0'.toNat) ≤ 2 ^ 64 - 1 then
          some (n * 10 + (c.toNat - '0'.toNat))
        else none
      else none := by
  unfold parseUintDigit
  by_cases hc : '0' ≤ c ∧ c ≤ '9'
  · have h9 : c.toNat ≤ 57 := Char.le_def.mp hc.2
    have h0 : '0'.toNat = 48 := rfl
    have hd : c.toNat - '0'.toNat ≤ 9 := by omega
    simp only [hc, and_self, if_true, maxUint64]
    generalize c.toNat - '0'.toNat = d at hd ⊢
    norm_num
    split_ifs <;> first | rfl | omega | (congr 1; omega)
  · simp only [hc, if_false]

/-- The value read so far never decreases. -/
theorem le_foldl_digits (cs : List Char) (n : Nat) :
    n ≤ cs.foldl (fun n c => n * 10 + (c.toNat - '0'.toNat)) n := by
  induction cs generalizing n with
  | nil => exact le_refl _
  | cons c cs ih =>
    simp only [List.foldl_cons]
    exact le_trans (by omega) (ih _)

/-- The digit loop returns the value of the digits read after `n`, and fails
exactly on a byte that is no digit or on a value above `2^64 - 1`. -/
theorem parseUintDigits_eq (cs : List Char) (n : Nat) (hn : n ≤ 2 ^ 64 - 1) :
    parseUintDigits n cs =
      if (∀ c ∈ cs, '0' ≤ c ∧ c ≤ '9') ∧
          cs.foldl (fun n c => n * 10 + (c.toNat - '0'.toNat)) n ≤ 2 ^ 64 - 1 then
        some (cs.foldl (fun n c => n * 10 + (c.toNat - '0'.toNat)) n)
      else none := by
  induction cs generalizing n with
  | nil =>
    simp only [parseUintDigits, List.foldl_nil, List.not_mem_nil, false_implies, implies_true,
      true_and, hn, if_true]
  | cons c cs ih =>
    simp only [parseUintDigits, parseUintDigit_eq, List.foldl_cons, List.mem_cons,
      forall_eq_or_imp]
    by_cases hc : '0' ≤ c ∧ c ≤ '9'
    · by_cases hv : n * 10 + (c.toNat - '0'.toNat) ≤ 2 ^ 64 - 1
      · simp only [hc, and_self, if_true, hv, true_and]
        exact ih _ hv
      · have hbig := le_foldl_digits cs (n * 10 + (c.toNat - '0'.toNat))
        have hfold : ¬ cs.foldl (fun n c => n * 10 + (c.toNat - '0'.toNat))
            (n * 10 + (c.toNat - '0'.toNat)) ≤ 2 ^ 64 - 1 := by omega
        rw [if_pos hc, if_neg hv, if_neg (fun h => hfold h.2)]
    · rw [if_neg hc, if_neg (fun h => hc h.1.1)]

/-- `ParseUint` accepts exactly the base-10 texts of unsigned 64-bit integers,
and returns their value. -/
theorem ParseUint_eq (s : String) :
    ParseUint s = if IsUint64Text s then some (decimalValue s.data) else none := by
  obtain ⟨cs⟩ := s
  unfold ParseUint IsUint64Text decimalValue
  cases cs with
  | nil => simp
  | cons c cs =>
    simp only [parseUintDigits_eq (c :: cs) 0 (by norm_num), ne_eq, reduceCtorEq,
      not_false_eq_true, true_and]

/-- `ParseUint` fails exactly on the strings that are no such text. -/
theorem ParseUint_eq_none_iff (s : String) : ParseUint s = none ↔ ¬ IsUint64Text s := by
  rw [ParseUint_eq]
  by_cases h : IsUint64Text s <;> simp [h]

/-- The sign and range check of `Atoi` on the outcome of the digit loop, for a
text with a minus sign. -/
theorem atoi_range_neg (P : Prop) [Decidable P] (v : Nat) :
    (match if P ∧ v ≤ 2 ^ 64 - 1 then some v else none with
      | none => none
      | some un => if un > 2 ^ 63 then none else some (-(un : Int)))
      = if P ∧ v ≤ 2 ^ 63 then some (-(v : Int)) else none := by
  by_cases hP : P
  · by_cases h1 : v ≤ 2 ^ 64 - 1
    · rw [if_pos ⟨hP, h1⟩]
      simp only [hP, true_and]
      split_ifs <;> first | rfl | omega
    · rw [if_neg (fun h => h1 h.2), if_neg (fun h => h1 (by omega))]
  · rw [if_neg (fun h => hP h.1), if_neg (fun h => hP h.1)]

/-- The sign and range check of `Atoi` on the outcome of the digit loop, for a
text without a minus sign. -/
theorem atoi_range_pos (P : Prop) [Decidable P] (v : Nat) :
    (match if P ∧ v ≤ 2 ^ 64 - 1 then some v else none with
      | none => none
      | some un => if un ≥ 2 ^ 63 then none else some (un : Int))
      = if P ∧ v ≤ 2 ^ 63 - 1 then some (v : Int) else none := by
  by_cases hP : P
  · by_cases h1 : v ≤ 2 ^ 64 - 1
    · rw [if_pos ⟨hP, h1⟩]
      simp only [hP, true_and]
      split_ifs <;> first | rfl | omega
    · rw [if_neg (fun h => h1 h.2), if_neg (fun h => h1 (by omega))]
  · rw [if_neg (fun h => hP h.1), if_neg (fun h => hP h.1)]

/-- `Atoi` accepts exactly the base-10 texts of signed 64-bit integers, and
returns the number they stand for. -/
theorem Atoi_eq (s : String) :
    Atoi s = if IsInt64Text s then some (int64Value s) else none := by
  obtain ⟨cs⟩ := s
  unfold Atoi IsInt64Text int64Value
  cases cs with
  | nil => simp
  | cons c cs =>
    simp only
    by_cases hm : c = '-'
    · subst hm
      simp only [or_true, if_true]
      cases cs with
      | nil => simp
      | cons d ds =>
        simp only [parseUintDigits_eq (d :: ds) 0 (by norm_num), decimalValue, ne_eq,
          reduceCtorEq, not_false_eq_true, true_and, not_true_eq_false, false_and, if_false]
        exact atoi_range_neg _ _
    · by_cases hp : c = '+'
      · subst hp
        simp only [true_or, if_true]
        cases cs with
        | nil => simp
        | cons d ds =>
          simp only [parseUintDigits_eq (d :: ds) 0 (by norm_num), decimalValue, ne_eq,
            reduceCtorEq, not_false_eq_true, true_and, show ¬ ('+' = '-') by decide,
            if_false, false_and]
          exact atoi_range_pos _ _
      · simp only [hm, hp, or_self, if_false]
        simp only [parseUintDigits_eq (c :: cs) 0 (by norm_num), decimalValue, ne_eq,
          reduceCtorEq, not_false_eq_true, true_and]
        exact atoi_range_pos _ _

/-- `Atoi` fails exactly on the strings that are no such text. -/
theorem Atoi_eq_none_iff (s : String) : Atoi s = none ↔ ¬ IsInt64Text s := by
  rw [Atoi_eq]
  by_cases h : IsInt64Text s <;> simp [h]

end strconv

namespace GinListAPI

/-- An id the existence query finds has a row. -/
theorem sqliteGetID_ok (db : DB) (id k : Int) (h : sqliteGetID db id = .ok k) :
    ∃ t ∈ db.rows, t.ID = id := by
  unfold sqliteGetID at h
  cases hfault : db.fault Call.GetID with
  | some msg => simp [hfault] at h
  | none =>
    simp only [hfault] at h
    cases hfind : db.rows.find? (fun r => r.ID = id) with
    | none => simp [hfind] at h
    | some t =>
      have ht := List.find?_some hfind
      simp only [decide_eq_true_eq] at ht
      exact ⟨t, List.mem_of_find?_eq_some hfind, ht⟩

/-- An id that has a row is counted. -/
theorem DB.count_ne_zero (db : DB) (id : Int) (h : ∃ t ∈ db.rows, t.ID = id) :
    db.count id ≠ 0 := by
  obtain ⟨t, ht, hid⟩ := h
  have hpos : 0 < db.rows.countP (fun r => r.ID = id) := by
    rw [List.countP_pos_iff]
    exact ⟨t, ht, by simp [hid]⟩
  unfold DB.count
  omega

end GinListAPI

namespace BlogAPI

/-- A failed `INSERT` leaves the state as it was. -/
theorem DB.insert_error (db db1 : DB) (now : Nat) (post : Post) (e : DBError)
    (h : db.insert now post = (.error e, db1)) : db1 = db := by
  unfold DB.insert at h
  by_cases hc : (db.rows.any fun r => r.ID = if post.ID = 0 then db.nextID else post.ID) = true
  · simp only [hc, if_true, Prod.mk.injEq] at h
    exact h.2.symm
  · simp [hc] at h

/-- The live rows after a soft delete are the live rows with another id. -/
theorem filter_live_softDelete (now id : Nat) (rows : List Post) :
    (rows.map (fun r =>
        if r.ID = id ∧ live r then { r with DeletedAt := some now } else r)).filter live
      = (rows.filter live).filter (fun p => p.ID ≠ id) := by
  induction rows with
  | nil => rfl
  | cons r rs ih =>
    simp only [List.map_cons]
    by_cases hl : live r = true
    · by_cases hid : r.ID = id
      · rw [if_pos ⟨hid, hl⟩]
        rw [List.filter_cons_of_neg (by simp [live]), List.filter_cons_of_pos hl,
          List.filter_cons_of_neg (by simp [hid]), ih]
      · rw [if_neg (fun h => hid h.1)]
        rw [List.filter_cons_of_pos hl, List.filter_cons_of_pos hl,
          List.filter_cons_of_pos (by simp [hid]), ih]
    · rw [if_neg (fun h => hl h.2)]
      rw [List.filter_cons_of_neg hl, List.filter_cons_of_neg hl, ih]

/-- With no live row of id `id`, removing that id from the live rows removes
nothing. -/
theorem filter_live_of_liveCount_zero (db : DB) (id : Nat) (h : db.liveCount id = 0) :
    (db.rows.filter live).filter (fun p => p.ID ≠ id) = db.rows.filter live := by
  rw [List.filter_eq_self]
  intro p hp
  rw [List.mem_filter] at hp
  unfold DB.liveCount at h
  rw [List.countP_eq_zero] at h
  have := h p hp.1
  simp only [Bool.and_eq_true, decide_eq_true_eq, not_and] at this
  simp only [ne_eq, decide_not, Bool.not_eq_true', decide_eq_false_iff_not]
  intro hid
  exact this hid hp.2

/-- A soft delete changes no id. -/
theorem map_ID_softDelete (now id : Nat) (rows : List Post) :
    (rows.map (fun r =>
        if r.ID = id ∧ live r then { r with DeletedAt := some now } else r)).map (fun p => p.ID)
      = rows.map (fun p => p.ID) := by
  rw [List.map_map]
  apply List.map_congr_left
  intro r _
  simp only [Function.comp]
  split_ifs <;> rfl

/-- A Create request without the `DeletedAt` key keeps store and ledger in
agreement. -/
theorem serve_create_agrees (db : DB) (led : List Post) (now : Nat) (body : Body)
    (hplain : (Request.create now body).setsDeletedAt = false) (h : Agrees db led) :
    Agrees (serve db (.create now body)).2
      (ledger led (.create now body) (serve db (.create now body)).1) := by
  obtain ⟨hf, hlive, hnodup⟩ := h
  simp only [serve, ledger]
  cases hb : Bind Post.zero body with
  | none =>
    have : createPost (gorm now) body db = (⟨400, .text "Invalid JSON body"⟩, db) := by
      simp [createPost, hb]
    rw [this]
    exact ⟨hf, hlive, hnodup⟩
  | some post =>
    have hpost : post.DeletedAt = none := by
      cases body with
      | malformed => simp [Bind] at hb
      | json o =>
        have ho : o.DeletedAt = none := by
          cases hd : o.DeletedAt with
          | none => rfl
          | some t => simp [Request.setsDeletedAt, hd] at hplain
        simp only [Bind, Option.some.injEq] at hb
        rw [← hb]
        simp [ho, Post.zero]
    rw [createPost_bound (gorm now) db post body hb]
    by_cases hv : post.Title = "" ∨ post.Content = ""
    · rw [if_pos hv]
      exact ⟨hf, hlive, hnodup⟩
    · rw [if_neg hv, gorm_Create]
      simp only [gormCreate, db.fault_none _ hf]
      cases hins : (db.logged (Write.Create post)).insert now post with
      | mk r db1 =>
        cases r with
        | error e =>
          have hdb1 := DB.insert_error _ _ _ _ _ hins
          subst hdb1
          exact ⟨hf, hlive, hnodup⟩
        | ok R =>
          obtain ⟨hrows, hfaults, _, hdel, _, _, hfresh⟩ := DB.insert_ok _ _ _ _ _ hins
          have hRlive : live R = true := by simp [live, hdel, hpost]
          simp only [DB.logged_rows, DB.logged_faults] at hrows hfaults hfresh
          refine ⟨by rw [hfaults, hf], ?_, ?_⟩
          · simp only [if_true]
            rw [hrows, List.filter_append, hlive]
            simp [hRlive]
          · rw [hrows, List.map_append, List.nodup_append]
            refine ⟨hnodup, by simp, ?_⟩
            intro a ha hb'
            simp only [List.map_cons, List.map_nil, List.mem_singleton] at hb'
            rw [List.mem_map] at ha
            obtain ⟨r, hr, hra⟩ := ha
            exact hfresh r hr (by rw [hra, hb'])

/-- A Delete request keeps store and ledger in agreement. -/
theorem serve_delete_agrees (db : DB) (led : List Post) (now : Nat) (idStr : String)
    (h : Agrees db led) :
    Agrees (serve db (.delete now idStr)).2
      (ledger led (.delete now idStr) (serve db (.delete now idStr)).1) := by
  obtain ⟨hf, hlive, hnodup⟩ := h
  simp only [serve, ledger]
  cases hid : strconv.ParseUint idStr with
  | none =>
    have hdel : deletePost (gorm now) idStr db
        = (⟨400, .text "Invalid post ID format"⟩, db) := by
      simp [deletePost, hid]
    simp only [hdel]
    exact ⟨hf, hlive, hnodup⟩
  | some id =>
    have hdel : deletePost (gorm now) idStr db
        = if db.liveCount id = 0 then
            (⟨404, .text "Post not found"⟩, (db.logged (Write.Delete id)).softDelete now id)
          else (⟨204, .empty⟩, (db.logged (Write.Delete id)).softDelete now id) := by
      rw [deletePost_parsed (gorm now) idStr id db hid, gorm_Delete,
        gormDelete_ok now id db (db.fault_none _ hf)]
    simp only [hdel]
    have hrows : ((db.logged (Write.Delete id)).softDelete now id).rows.filter live
        = led.filter (fun p => p.ID ≠ id) := by
      rw [← hlive]
      exact filter_live_softDelete now id db.rows
    have hids : (((db.logged (Write.Delete id)).softDelete now id).rows.map (fun p => p.ID)).Nodup
        := by
      have := map_ID_softDelete now id db.rows
      simp only [DB.softDelete, DB.logged_rows]
      rw [this]
      exact hnodup
    by_cases hc : db.liveCount id = 0
    · simp only [hc, if_true]
      refine ⟨by simpa using hf, ?_, hids⟩
      rw [hrows, ← hlive]
      exact filter_live_of_liveCount_zero db id hc
    · simp only [hc, if_false, if_true]
      exact ⟨by simpa using hf, hrows, hids⟩

/-- Requests without the `DeletedAt` key keep store and ledger in agreement. -/
theorem serveAll_agrees (reqs : List Request) :
    ∀ (db : DB) (led : List Post), Agrees db led →
      (∀ r ∈ reqs, r.setsDeletedAt = false) →
      Agrees (serveAll db led reqs).1 (serveAll db led reqs).2 := by
  induction reqs with
  | nil => intro db led h _; exact h
  | cons req reqs ih =>
    intro db led h hplain
    simp only [serveAll]
    apply ih
    · cases req with
      | create now body =>
        exact serve_create_agrees db led now body (hplain _ (List.mem_cons_self _ _)) h
      | delete now idStr => exact serve_delete_agrees db led now idStr h
    · intro r hr
      exact hplain r (List.mem_cons_of_mem _ hr)

end BlogAPI

namespace strconv

/-- The digit written for a number below ten has that number as its value. -/
theorem digit_value (d : Nat) (hd : d < 10) :
    (Char.ofNat ('0'.toNat + d)).toNat - '0'.toNat = d := by
  interval_cases d <;> rfl

/-- The digits are written in front of what is there already. -/
theorem itoaDigits_acc (fuel : Nat) : ∀ (n : Nat) (acc : List Char),
    itoaDigits fuel n acc = itoaDigits fuel n [] ++ acc := by
  induction fuel with
  | zero => intro n acc; rfl
  | succ fuel ih =>
    intro n acc
    simp only [itoaDigits]
    by_cases h : n / 10 = 0
    · simp [h]
    · simp only [h, if_false]
      rw [ih (n / 10) (_ :: acc), ih (n / 10) [_]]
      simp

/-- The value of the digits of `n` is `n`. -/
theorem decimalValue_itoaDigits (fuel : Nat) : ∀ (n : Nat), n < fuel →
    decimalValue (itoaDigits fuel n []) = n := by
  induction fuel with
  | zero => intro n h; omega
  | succ fuel ih =>
    intro n hn
    simp only [itoaDigits]
    by_cases h : n / 10 = 0
    · simp only [h, if_true, decimalValue, List.foldl_cons, List.foldl_nil]
      rw [digit_value _ (Nat.mod_lt _ (by norm_num))]
      omega
    · simp only [h, if_false]
      rw [itoaDigits_acc]
      have hlt : n / 10 < fuel := by omega
      have hrec := ih (n / 10) hlt
      simp only [decimalValue] at hrec ⊢
      rw [List.foldl_append, hrec]
      simp only [List.foldl_cons, List.foldl_nil]
      rw [digit_value _ (Nat.mod_lt _ (by norm_num))]
      omega

/-- The text of a natural number has that number as its value. -/
theorem decimalValue_Itoa (n : Nat) : decimalValue (Itoa (n : Int)).data = n := by
  have hneg : ¬ ((n : Int) < 0) := by omega
  simp only [Itoa, hneg, if_false, Int.natAbs_ofNat]
  exact decimalValue_itoaDigits (n + 1) n (by omega)

/-- Two natural numbers with the same text are equal. -/
theorem Itoa_injective (a b : Nat) (h : Itoa (a : Int) = Itoa (b : Int)) : a = b := by
  rw [← decimalValue_Itoa a, ← decimalValue_Itoa b, h]

end strconv

namespace GraphQLTodo

/-- In a reachable state `nextID` is one more than the number of todos, and
the ids are the texts of `1, 2, ...` in this order. -/
theorem reachable_nextID (st : State) (h : Reachable st) :
    st.nextID = (st.todos.length : Int) + 1 ∧
      st.todos.map (fun t => t.ID)
        = (List.range st.todos.length).map (fun (i : Nat) => strconv.Itoa ((i : Int) + 1)) := by
  induction h with
  | init => exact ⟨by decide, by decide⟩
  | addTodo st arg _ ih =>
    cases arg with
    | none => exact ih
    | some text =>
      obtain ⟨hn, hids⟩ := ih
      simp only [addTodo, List.length_append, List.length_singleton, List.map_append,
        List.map_cons, List.map_nil, List.range_succ]
      refine ⟨by push_cast; omega, ?_⟩
      rw [hids, hn]

end GraphQLTodo

namespace GinListAPI

/-- After the `UPDATE`, the first row with the id carries the new values. -/
theorem find_updateRows (rows : List Todo) (title : String) (completed : Bool) (id : Int)
    (h : ∃ t ∈ rows, t.ID = id) :
    (rows.map (fun r =>
        if r.ID = id then { r with Title := title, Completed := completed } else r)).find?
      (fun r => r.ID = id) = some { ID := id, Title := title, Completed := completed } := by
  induction rows with
  | nil => simp at h
  | cons r rs ih =>
    simp only [List.map_cons]
    by_cases hr : r.ID = id
    · rw [if_pos hr, List.find?_cons_of_pos _ (by simp [hr])]
      rw [hr]
    · rw [if_neg hr, List.find?_cons_of_neg _ (by simp [hr])]
      apply ih
      obtain ⟨t, ht, htid⟩ := h
      simp only [List.mem_cons] at ht
      rcases ht with rfl | ht
      · exact absurd htid hr
      · exact ⟨t, ht, htid⟩

end GinListAPI

/-! ## Properties of the handlers -/

/-- C1. createPost: a decoded payload whose title or content is missing or empty
is answered with 400 and the store state after the request is the state before
it, whatever the store is (no call is made on it). -/
theorem createPost_validation_gate {σ : Type} (S : BlogAPI.Store σ) (o : BlogAPI.PostJSON)
    (s : σ)
    (h : o.title = none ∨ o.title = some "" ∨ o.content = none ∨ o.content = some "") :
    BlogAPI.createPost S (.json o) s
      = (⟨400, .text "Title and Content cannot be empty"⟩, s) := by
  rcases h with h | h | h | h <;> simp [BlogAPI.createPost, BlogAPI.Bind, BlogAPI.Post.zero, h]

/-- Witness of C1: a payload with no title, sent to a store holding one post. -/
theorem createPost_validation_gate_witness :
    ((none : Option String) = none ∨ (none : Option String) = some "" ∨
        some "b" = (none : Option String) ∨ some "b" = some "") ∧
      BlogAPI.createPost (BlogAPI.gorm 5)
          (.json ⟨none, none, none, none, none, some "b"⟩)
          ⟨[⟨1, 2, 2, none, "a", "b"⟩], 1, [], []⟩
        = (⟨400, .text "Title and Content cannot be empty"⟩,
            ⟨[⟨1, 2, 2, none, "a", "b"⟩], 1, [], []⟩) :=
  ⟨by decide,
    createPost_validation_gate (BlogAPI.gorm 5) ⟨none, none, none, none, none, some "b"⟩
      ⟨[⟨1, 2, 2, none, "a", "b"⟩], 1, [], []⟩ (by decide)⟩

/-- C3. Idempotent delete, on the stores without injected failure: for an id
that has a (live) row, the first Delete answers 204 and a second Delete on the
resulting state answers 404; neither answers 500.  Blog post service first,
todo service second. -/
theorem delete_twice :
    (∀ (now1 now2 : Nat) (db : BlogAPI.DB) (idStr : String) (id : Nat),
        strconv.ParseUint idStr = some id → db.faults = [] →
        (∃ p ∈ db.rows, p.ID = id ∧ p.DeletedAt = none) →
        (BlogAPI.deletePost (BlogAPI.gorm now1) idStr db).1 = ⟨204, .empty⟩ ∧
        (BlogAPI.deletePost (BlogAPI.gorm now2) idStr
            (BlogAPI.deletePost (BlogAPI.gorm now1) idStr db).2).1
          = ⟨404, .text "Post not found"⟩) ∧
    (∀ (db : GinListAPI.DB) (idSTR : String) (id : Int),
        strconv.Atoi idSTR = some id → db.faults = [] →
        (∃ t ∈ db.rows, t.ID = id) →
        (GinListAPI.deleteTodoByID GinListAPI.sqlite idSTR db).1 = ⟨204, .empty⟩ ∧
        (GinListAPI.deleteTodoByID GinListAPI.sqlite idSTR
            (GinListAPI.deleteTodoByID GinListAPI.sqlite idSTR db).2).1
          = ⟨404, .error "Todo not found"⟩) := by
  constructor
  · intro now1 now2 db idStr id hid hf hex
    have hpos := BlogAPI.DB.liveCount_pos db id hex
    have h1 : BlogAPI.deletePost (BlogAPI.gorm now1) idStr db
        = (⟨204, .empty⟩, (db.logged (.Delete id)).softDelete now1 id) := by
      rw [BlogAPI.deletePost_parsed _ idStr id db hid, BlogAPI.gorm_Delete,
        BlogAPI.gormDelete_ok now1 id db (db.fault_none _ hf)]
      simp [hpos]
    rw [h1]
    refine ⟨rfl, ?_⟩
    rw [BlogAPI.deletePost_parsed _ idStr id _ hid, BlogAPI.gorm_Delete,
      BlogAPI.gormDelete_ok now2 id _ (BlogAPI.DB.fault_none _ _ (by simpa using hf))]
    simp [BlogAPI.DB.softDelete_liveCount]
  · intro db idSTR id hid hf hex
    have hget := GinListAPI.sqliteGetID_present db id (db.todos_fault_none _ hf) hex
    obtain ⟨hst, r, hr⟩ := GinListAPI.sqliteExecDelete_ok db id (db.todos_fault_none _ hf)
    have h1 : GinListAPI.deleteTodoByID GinListAPI.sqlite idSTR db
        = (⟨204, .empty⟩, (db.logged (.Delete id)).deleteRows id) := by
      rw [GinListAPI.deleteTodoByID_found _ idSTR id id db hid hget,
        GinListAPI.sqlite_ExecDelete, ← hst]
      generalize GinListAPI.sqliteExecDelete db id = out at hr
      obtain ⟨o1, o2⟩ := out
      simp only at hr
      subst hr
      rfl
    rw [h1]
    refine ⟨rfl, ?_⟩
    rw [GinListAPI.deleteTodoByID_absent _ idSTR id _ hid]
    rw [GinListAPI.sqlite_GetID]
    exact GinListAPI.sqliteGetID_absent _ id
      (GinListAPI.DB.todos_fault_none _ _ (by simpa using hf))
      (GinListAPI.DB.deleteRows_absent _ id)

/-- Witness of C3: both stores hold a row with id 1. -/
theorem delete_twice_witness :
    ((BlogAPI.deletePost (BlogAPI.gorm 5) "1" ⟨[⟨1, 2, 2, none, "a", "b"⟩], 1, [], []⟩).1
        = ⟨204, .empty⟩ ∧
      (BlogAPI.deletePost (BlogAPI.gorm 6) "1"
          (BlogAPI.deletePost (BlogAPI.gorm 5) "1"
            ⟨[⟨1, 2, 2, none, "a", "b"⟩], 1, [], []⟩).2).1
        = ⟨404, .text "Post not found"⟩) ∧
    ((GinListAPI.deleteTodoByID GinListAPI.sqlite "1" ⟨[⟨1, "a", false⟩], 1, [], []⟩).1
        = ⟨204, .empty⟩ ∧
      (GinListAPI.deleteTodoByID GinListAPI.sqlite "1"
          (GinListAPI.deleteTodoByID GinListAPI.sqlite "1"
            ⟨[⟨1, "a", false⟩], 1, [], []⟩).2).1
        = ⟨404, .error "Todo not found"⟩) :=
  ⟨delete_twice.1 5 6 ⟨[⟨1, 2, 2, none, "a", "b"⟩], 1, [], []⟩ "1" 1 (by decide) rfl
      ⟨⟨1, 2, 2, none, "a", "b"⟩, by simp, rfl, rfl⟩,
    delete_twice.2 ⟨[⟨1, "a", false⟩], 1, [], []⟩ "1" 1 (by decide) rfl
      ⟨⟨1, "a", false⟩, by simp, rfl⟩⟩

/-- C4, counterexample.  On the empty blog store a body with title, content and
a `DeletedAt` key is created with 201 and id 1, and reading id 1 right
afterwards answers 404: the row was inserted soft-deleted. -/
theorem create_then_read_deletedAt :
    (BlogAPI.createPost (BlogAPI.gorm 5) (.json ⟨none, none, none, some 3, some "a", some "b"⟩)
        ⟨[], 0, [], []⟩).1 = ⟨201, .post ⟨1, 5, 5, some 3, "a", "b"⟩⟩ ∧
      strconv.ParseUint "1" = some 1 ∧
      BlogAPI.getPostByID (BlogAPI.gorm 6) "1"
        (BlogAPI.createPost (BlogAPI.gorm 5)
          (.json ⟨none, none, none, some 3, some "a", some "b"⟩) ⟨[], 0, [], []⟩).2
        = ⟨404, .text "Post not found"⟩ := by
  decide

/-- C4, amended.  Round trip on the stores without injected failure: when
Create answers 201 with resource `R`, a ReadOne whose path id parses to `R.ID`
answers 200 with `R`.  For the todo service this holds for every request
body; for the blog post service for every decoded body without the
`DeletedAt` key. -/
theorem create_then_read :
    (∀ (now1 now2 : Nat) (db db1 : BlogAPI.DB) (o : BlogAPI.PostJSON) (R : BlogAPI.Post)
        (idStr : String), db.faults = [] → o.DeletedAt = none →
        BlogAPI.createPost (BlogAPI.gorm now1) (.json o) db = (⟨201, .post R⟩, db1) →
        strconv.ParseUint idStr = some R.ID →
        BlogAPI.getPostByID (BlogAPI.gorm now2) idStr db1 = ⟨200, .post R⟩) ∧
    (∀ (db db1 : GinListAPI.DB) (body : GinListAPI.Body) (R : GinListAPI.Todo)
        (idSTR : String), db.faults = [] →
        GinListAPI.postTodos GinListAPI.sqlite body db = (⟨201, .todo R⟩, db1) →
        strconv.Atoi idSTR = some R.ID →
        GinListAPI.getTodoByID GinListAPI.sqlite idSTR db1 = ⟨200, .todo R⟩) := by
  constructor
  · intro now1 now2 db db1 o R idStr hf hdel hcreate hid
    obtain ⟨post, hbind, _, _, hins⟩ := BlogAPI.createPost_created now1 db db1 o R hf hcreate
    obtain ⟨hrows, hfaults, _, hdeleted, _, _, hfresh⟩ := BlogAPI.DB.insert_ok _ _ _ _ _ hins
    have hpost : post.DeletedAt = none := by
      simp only [BlogAPI.Bind, Option.some.injEq] at hbind
      subst hbind
      simp [hdel, BlogAPI.Post.zero]
    apply BlogAPI.getPostByID_found _ idStr R.ID db1 R hid
    rw [BlogAPI.gorm_First]
    refine BlogAPI.gormFirst_appended db1 db.rows R ?_ (by simpa using hrows)
      (by simpa using hfresh) (by rw [hdeleted, hpost])
    exact BlogAPI.DB.fault_none _ _ (by simpa [hf] using hfaults)
  · intro db db1 body R idSTR hf hcreate hid
    cases body with
    | malformed => simp [GinListAPI.postTodos, GinListAPI.ShouldBindJSON] at hcreate
    | json o =>
      rw [GinListAPI.postTodos_json db o hf] at hcreate
      simp only [Prod.mk.injEq, GinListAPI.Response.mk.injEq, GinListAPI.Payload.todo.injEq,
        true_and] at hcreate
      obtain ⟨hR, hdb1⟩ := hcreate
      apply GinListAPI.getTodoByID_found _ idSTR R.ID db1 R hid
      rw [GinListAPI.sqlite_GetTodo]
      refine GinListAPI.sqliteGetTodo_appended db1 db.rows R ?_ ?_ ?_
      · exact GinListAPI.DB.todos_fault_none _ _ (by rw [← hdb1]; exact hf)
      · rw [← hdb1, ← hR]; rfl
      · rw [← hR]; exact db.todos_nextID_fresh

/-- Witness of C4 (amended): title "a", content "b" on empty stores. -/
theorem create_then_read_witness :
    BlogAPI.getPostByID (BlogAPI.gorm 6) "1"
        ⟨[⟨1, 5, 5, none, "a", "b"⟩], 1, [], [.Create ⟨0, 0, 0, none, "a", "b"⟩]⟩
      = ⟨200, .post ⟨1, 5, 5, none, "a", "b"⟩⟩ ∧
    GinListAPI.getTodoByID GinListAPI.sqlite "1"
        ⟨[⟨1, "a", false⟩], 1, [], [.Insert "a" false]⟩
      = ⟨200, .todo ⟨1, "a", false⟩⟩ :=
  ⟨create_then_read.1 5 6 ⟨[], 0, [], []⟩ _ ⟨none, none, none, none, some "a", some "b"⟩
      ⟨1, 5, 5, none, "a", "b"⟩ "1" rfl rfl (by decide) (by decide),
    create_then_read.2 ⟨[], 0, [], []⟩ _ (.json ⟨none, some "a", none⟩) ⟨1, "a", false⟩ "1"
      rfl (by decide) (by decide)⟩

/-- C5.  The code at the failing input.  The store holds posts 1 and 2;
`PUT /posts/1` with a valid body that carries `ID: 2` fetches post 1, and the
body overwrites its id before `Save`: the record handed to `Save` has id 2,
row 2 is rewritten (with the `CreatedAt` of post 1), row 1 is left as it was,
and the 200 response carries id 2. -/
theorem updatePost_body_id_redirects :
    (BlogAPI.gorm 9).First
        ⟨[⟨1, 2, 2, none, "a", "b"⟩, ⟨2, 3, 3, none, "c", "d"⟩], 2, [], []⟩ 1
      = .ok ⟨1, 2, 2, none, "a", "b"⟩ ∧
    BlogAPI.updatePost (BlogAPI.gorm 9) "1"
        (.json ⟨some 2, none, none, none, some "x", some "y"⟩)
        ⟨[⟨1, 2, 2, none, "a", "b"⟩, ⟨2, 3, 3, none, "c", "d"⟩], 2, [], []⟩
      = (⟨200, .post ⟨2, 2, 9, none, "x", "y"⟩⟩,
          ⟨[⟨1, 2, 2, none, "a", "b"⟩, ⟨2, 2, 9, none, "x", "y"⟩], 2, [],
            [.Save ⟨2, 2, 2, none, "x", "y"⟩]⟩) := by
  decide

/-- C6, counterexample.  The store holds post 1 with title "a"; `PUT /posts/1`
with a body that has no title key is answered with 200 and the row is
rewritten: the stored title filled the missing key before validation. -/
theorem updatePost_missing_title_accepted :
    (BlogAPI.gorm 9).First ⟨[⟨1, 2, 2, none, "a", "b"⟩], 1, [], []⟩ 1
      = .ok ⟨1, 2, 2, none, "a", "b"⟩ ∧
    BlogAPI.updatePost (BlogAPI.gorm 9) "1"
        (.json ⟨none, none, none, none, none, some "c"⟩)
        ⟨[⟨1, 2, 2, none, "a", "b"⟩], 1, [], []⟩
      = (⟨200, .post ⟨1, 2, 9, none, "a", "c"⟩⟩,
          ⟨[⟨1, 2, 9, none, "a", "c"⟩], 1, [], [.Save ⟨1, 2, 2, none, "a", "c"⟩]⟩) := by
  decide

/-- C6, amended.  `updatePost`, for a path id that parses and is found, and a
decoded body: when a required field is empty after the body has been bound
onto the fetched record (the key is there with the empty string, or the key
is missing and the stored value is empty) the answer is 400 and the store
state is unchanged, whatever the store is; in every other case, a missing key
over a non-empty stored value included, the answer is not 400. -/
theorem updatePost_validation_gate {σ : Type} (S : BlogAPI.Store σ) (idStr : String)
    (id : Nat) (stored : BlogAPI.Post) (o : BlogAPI.PostJSON) (s : σ)
    (hid : strconv.ParseUint idStr = some id) (hget : S.First s id = .ok stored) :
    ((o.title.getD stored.Title = "" ∨ o.content.getD stored.Content = "") →
        BlogAPI.updatePost S idStr (.json o) s
          = (⟨400, .text "Title and Content cannot be empty"⟩, s)) ∧
    (¬ (o.title.getD stored.Title = "" ∨ o.content.getD stored.Content = "") →
        (BlogAPI.updatePost S idStr (.json o) s).1.status ≠ 400) := by
  have hupd := BlogAPI.updatePost_bound S idStr id s stored _ (.json o) hid hget rfl
  constructor
  · intro h
    rw [hupd, if_pos h]
  · intro h
    rw [hupd, if_neg h]
    generalize S.Save s _ = out
    obtain ⟨r, s1⟩ := out
    cases r <;> simp

/-- Witness of C6 (amended): `PUT /posts/1` with an empty title, and with the
title key left out. -/
theorem updatePost_validation_gate_witness :
    BlogAPI.updatePost (BlogAPI.gorm 9) "1"
        (.json ⟨none, none, none, none, some "", some "c"⟩)
        ⟨[⟨1, 2, 2, none, "a", "b"⟩], 1, [], []⟩
      = (⟨400, .text "Title and Content cannot be empty"⟩,
          ⟨[⟨1, 2, 2, none, "a", "b"⟩], 1, [], []⟩) ∧
    (BlogAPI.updatePost (BlogAPI.gorm 9) "1"
        (.json ⟨none, none, none, none, none, some "c"⟩)
        ⟨[⟨1, 2, 2, none, "a", "b"⟩], 1, [], []⟩).1.status ≠ 400 :=
  ⟨(updatePost_validation_gate (BlogAPI.gorm 9) "1" 1 ⟨1, 2, 2, none, "a", "b"⟩
      ⟨none, none, none, none, some "", some "c"⟩ ⟨[⟨1, 2, 2, none, "a", "b"⟩], 1, [], []⟩
      (by decide) (by decide)).1 (by decide),
    (updatePost_validation_gate (BlogAPI.gorm 9) "1" 1 ⟨1, 2, 2, none, "a", "b"⟩
      ⟨none, none, none, none, none, some "c"⟩ ⟨[⟨1, 2, 2, none, "a", "b"⟩], 1, [], []⟩
      (by decide) (by decide)).2 (by decide)⟩

/-- C7.  `updatePost` on the GORM store is merge-then-validate.  For a path id
that parses and is found with record `stored`, and a decoded body `o`, the
candidate `cand` takes title and content from the body where the key is
there and from `stored` where it is missing; `cand` is what is validated
(400 and no write when its title or content is empty) and what is handed to
`Save` otherwise, the answer then being 200 with these title and content
unless `Save` fails.  In particular a body that leaves the title (content)
key out over a non-empty stored value is answered with 200 and the stored
value, when the other field is non-empty, and a body with an empty string
under either key is answered with 400. -/
theorem updatePost_merge_then_validate (now : Nat) (db : BlogAPI.DB) (idStr : String)
    (id : Nat) (stored : BlogAPI.Post) (o : BlogAPI.PostJSON)
    (hid : strconv.ParseUint idStr = some id)
    (hget : (BlogAPI.gorm now).First db id = .ok stored) :
    ∃ cand, BlogAPI.Bind stored (.json o) = some cand ∧
      cand.Title = (match o.title with | some t => t | none => stored.Title) ∧
      cand.Content = (match o.content with | some c => c | none => stored.Content) ∧
      ((cand.Title = "" ∨ cand.Content = "") →
        BlogAPI.updatePost (BlogAPI.gorm now) idStr (.json o) db
          = (⟨400, .text "Title and Content cannot be empty"⟩, db)) ∧
      ((cand.Title ≠ "" ∧ cand.Content ≠ "") →
        (BlogAPI.updatePost (BlogAPI.gorm now) idStr (.json o) db).2.writes
            = db.writes ++ [.Save cand] ∧
          (db.fault .Save = none →
            ∃ p, (BlogAPI.updatePost (BlogAPI.gorm now) idStr (.json o) db).1
                = ⟨200, .post p⟩ ∧ p.Title = cand.Title ∧ p.Content = cand.Content)) ∧
      (o.title = none → stored.Title ≠ "" → cand.Content ≠ "" → db.fault .Save = none →
        ∃ p, (BlogAPI.updatePost (BlogAPI.gorm now) idStr (.json o) db).1 = ⟨200, .post p⟩ ∧
          p.Title = stored.Title) ∧
      (o.content = none → stored.Content ≠ "" → cand.Title ≠ "" → db.fault .Save = none →
        ∃ p, (BlogAPI.updatePost (BlogAPI.gorm now) idStr (.json o) db).1 = ⟨200, .post p⟩ ∧
          p.Content = stored.Content) ∧
      ((o.title = some "" ∨ o.content = some "") →
        BlogAPI.updatePost (BlogAPI.gorm now) idStr (.json o) db
          = (⟨400, .text "Title and Content cannot be empty"⟩, db)) := by
  have hupd := BlogAPI.updatePost_bound (BlogAPI.gorm now) idStr id db stored _ (.json o)
    hid hget rfl
  rw [BlogAPI.gorm_Save] at hupd
  generalize hc : (BlogAPI.Post.mk (o.ID.getD stored.ID) (o.CreatedAt.getD stored.CreatedAt)
      (o.UpdatedAt.getD stored.UpdatedAt)
      (match o.DeletedAt with
        | some t => some t
        | none => stored.DeletedAt)
      (o.title.getD stored.Title) (o.content.getD stored.Content)) = cand at hupd
  have hbind : BlogAPI.Bind stored (.json o) = some cand := by rw [← hc]; rfl
  have hT : cand.Title = (match o.title with | some t => t | none => stored.Title) := by
    rw [← hc]; cases o.title <;> rfl
  have hC : cand.Content = (match o.content with | some c => c | none => stored.Content) := by
    rw [← hc]; cases o.content <;> rfl
  have hsave : (cand.Title ≠ "" ∧ cand.Content ≠ "") → db.fault .Save = none →
      ∃ p, (BlogAPI.updatePost (BlogAPI.gorm now) idStr (.json o) db).1 = ⟨200, .post p⟩ ∧
        p.Title = cand.Title ∧ p.Content = cand.Content := by
    intro hv hf
    obtain ⟨p, db1, hs, hpT, hpC⟩ := BlogAPI.gormSave_ok now db cand hf
    rw [hupd, if_neg (by rw [not_or]; exact hv), hs]
    exact ⟨p, rfl, hpT, hpC⟩
  have hreject : (cand.Title = "" ∨ cand.Content = "") →
      BlogAPI.updatePost (BlogAPI.gorm now) idStr (.json o) db
        = (⟨400, .text "Title and Content cannot be empty"⟩, db) := by
    intro h
    rw [hupd, if_pos h]
  refine ⟨cand, hbind, hT, hC, hreject, ?_, ?_, ?_, ?_⟩
  · intro hv
    refine ⟨?_, hsave hv⟩
    rw [hupd, if_neg (by rw [not_or]; exact hv), ← BlogAPI.gormSave_writes now db cand]
    generalize BlogAPI.gormSave now db cand = out
    obtain ⟨r, s1⟩ := out
    cases r <;> rfl
  · intro ht hst hcc hf
    have hTs : cand.Title = stored.Title := by rw [hT, ht]
    obtain ⟨p, hp, hpT, _⟩ := hsave ⟨by rw [hTs]; exact hst, hcc⟩ hf
    exact ⟨p, hp, by rw [hpT, hTs]⟩
  · intro hcn hsc hct hf
    have hCs : cand.Content = stored.Content := by rw [hC, hcn]
    obtain ⟨p, hp, _, hpC⟩ := hsave ⟨hct, by rw [hCs]; exact hsc⟩ hf
    exact ⟨p, hp, by rw [hpC, hCs]⟩
  · intro h
    apply hreject
    rcases h with h | h
    · left; rw [hT, h]
    · right; rw [hC, h]

/-- Witness of C7: `PUT /posts/1` with the title key left out, on the store
that holds post 1 with title "a"; the answer is 200 and carries title "a". -/
theorem updatePost_merge_then_validate_witness :
    ∃ p, (BlogAPI.updatePost (BlogAPI.gorm 9) "1"
        (.json ⟨none, none, none, none, none, some "c"⟩)
        ⟨[⟨1, 2, 2, none, "a", "b"⟩], 1, [], []⟩).1 = ⟨200, .post p⟩ ∧ p.Title = "a" := by
  obtain ⟨cand, _, _, hC, _, _, h3, _⟩ :=
    updatePost_merge_then_validate 9 ⟨[⟨1, 2, 2, none, "a", "b"⟩], 1, [], []⟩ "1" 1
      ⟨1, 2, 2, none, "a", "b"⟩ ⟨none, none, none, none, none, some "c"⟩ (by decide)
      (by decide)
  exact h3 rfl (by decide) (by rw [hC]; decide) rfl

/-- C8, counterexample.  A title that is one blank is not rejected: on the
empty store `createPost` answers 201 and the row is written with that title. -/
theorem createPost_blank_title_accepted :
    BlogAPI.createPost (BlogAPI.gorm 5) (.json ⟨none, none, none, none, some " ", some "b"⟩)
        ⟨[], 0, [], []⟩
      = (⟨201, .post ⟨1, 5, 5, none, " ", "b"⟩⟩,
          ⟨[⟨1, 5, 5, none, " ", "b"⟩], 1, [], [.Create ⟨0, 0, 0, none, " ", "b"⟩]⟩) := by
  decide

/-- C8, amended.  The validation of `createPost` and `updatePost` compares
title and content with the empty string and trims nothing.  For a decoded
body with title `t` and content `c`: when `t` or `c` is the empty string the
answer is 400 and the store state is unchanged; when neither is, be it
made of whitespace only, the answer is not 400 (the record goes to the
store with `t` and `c` as they are).  For `updatePost` the path id is taken to
parse and to be found. -/
theorem validation_compares_with_empty_string {σ : Type} (S : BlogAPI.Store σ)
    (o : BlogAPI.PostJSON) (t c : String) (s : σ)
    (ht : o.title = some t) (hc : o.content = some c) :
    ((t = "" ∨ c = "") →
        BlogAPI.createPost S (.json o) s
          = (⟨400, .text "Title and Content cannot be empty"⟩, s)) ∧
    (¬ (t = "" ∨ c = "") → (BlogAPI.createPost S (.json o) s).1.status ≠ 400) ∧
    (∀ (idStr : String) (id : Nat) (stored : BlogAPI.Post),
        strconv.ParseUint idStr = some id → S.First s id = .ok stored →
        ((t = "" ∨ c = "") →
          BlogAPI.updatePost S idStr (.json o) s
            = (⟨400, .text "Title and Content cannot be empty"⟩, s)) ∧
        (¬ (t = "" ∨ c = "") → (BlogAPI.updatePost S idStr (.json o) s).1.status ≠ 400)) := by
  have hcreate := BlogAPI.createPost_bound S s _ (.json o) rfl
  simp only [ht, hc, Option.getD_some] at hcreate
  refine ⟨?_, ?_, ?_⟩
  · intro h
    rw [hcreate, if_pos h]
  · intro h
    rw [hcreate, if_neg h]
    generalize S.Create s _ = out
    obtain ⟨r, s1⟩ := out
    cases r <;> simp
  · intro idStr id stored hid hget
    have hupd := BlogAPI.updatePost_bound S idStr id s stored _ (.json o) hid hget rfl
    simp only [ht, hc, Option.getD_some] at hupd
    constructor
    · intro h
      rw [hupd, if_pos h]
    · intro h
      rw [hupd, if_neg h]
      generalize S.Save s _ = out
      obtain ⟨r, s1⟩ := out
      cases r <;> simp

/-- Witness of C8 (amended): `createPost` rejects an empty title and does not
reject a title of one blank. -/
theorem validation_compares_with_empty_string_witness :
    BlogAPI.createPost (BlogAPI.gorm 5) (.json ⟨none, none, none, none, some "", some "b"⟩)
        ⟨[], 0, [], []⟩
      = (⟨400, .text "Title and Content cannot be empty"⟩, ⟨[], 0, [], []⟩) ∧
    (BlogAPI.createPost (BlogAPI.gorm 5) (.json ⟨none, none, none, none, some " ", some "b"⟩)
        ⟨[], 0, [], []⟩).1.status ≠ 400 :=
  ⟨(validation_compares_with_empty_string (BlogAPI.gorm 5)
      ⟨none, none, none, none, some "", some "b"⟩ "" "b" ⟨[], 0, [], []⟩ rfl rfl).1
      (by decide),
    (validation_compares_with_empty_string (BlogAPI.gorm 5)
      ⟨none, none, none, none, some " ", some "b"⟩ " " "b" ⟨[], 0, [], []⟩ rfl rfl).2.1
      (by decide)⟩

/-- C9, counterexample.  Two bodies with the same title and content, the second
with the extra key `ID: 7`: the candidates handed to `Create` differ (id 0 and
id 7) and so do the created posts (id 1 and id 7). -/
theorem createPost_body_id_reaches_store :
    BlogAPI.createPost (BlogAPI.gorm 5) (.json ⟨none, none, none, none, some "a", some "b"⟩)
        ⟨[], 0, [], []⟩
      = (⟨201, .post ⟨1, 5, 5, none, "a", "b"⟩⟩,
          ⟨[⟨1, 5, 5, none, "a", "b"⟩], 1, [], [.Create ⟨0, 0, 0, none, "a", "b"⟩]⟩) ∧
    BlogAPI.createPost (BlogAPI.gorm 5)
        (.json ⟨some 7, none, none, none, some "a", some "b"⟩) ⟨[], 0, [], []⟩
      = (⟨201, .post ⟨7, 5, 5, none, "a", "b"⟩⟩,
          ⟨[⟨7, 5, 5, none, "a", "b"⟩], 7, [], [.Create ⟨7, 0, 0, none, "a", "b"⟩]⟩) := by
  decide

/-- C9, amended.  `createPost` on the GORM store, for a decoded body with
non-empty title `t` and content `c`: `Create` is the one writing call and the
candidate it receives is the zero `Post` overwritten by the keys of the body,
`ID`, `CreatedAt`, `UpdatedAt` and `DeletedAt` included.  When the body has
none of these four keys the candidate has id and timestamps unset, and
without injected failure the created post gets the next row id of the store
and the current time. -/
theorem createPost_candidate (now : Nat) (db : BlogAPI.DB) (o : BlogAPI.PostJSON)
    (t c : String) (ht : o.title = some t) (hc : o.content = some c)
    (hT : t ≠ "") (hC : c ≠ "") :
    (BlogAPI.createPost (BlogAPI.gorm now) (.json o) db).2.writes
        = db.writes ++
          [.Create ⟨o.ID.getD 0, o.CreatedAt.getD 0, o.UpdatedAt.getD 0, o.DeletedAt, t, c⟩] ∧
    (o.ID = none → o.CreatedAt = none → o.UpdatedAt = none → o.DeletedAt = none →
      (BlogAPI.createPost (BlogAPI.gorm now) (.json o) db).2.writes
          = db.writes ++ [.Create ⟨0, 0, 0, none, t, c⟩] ∧
        (db.faults = [] →
          (BlogAPI.createPost (BlogAPI.gorm now) (.json o) db).1
            = ⟨201, .post ⟨db.nextID, now, now, none, t, c⟩⟩)) := by
  have hbind : BlogAPI.Bind BlogAPI.Post.zero (.json o)
      = some ⟨o.ID.getD 0, o.CreatedAt.getD 0, o.UpdatedAt.getD 0, o.DeletedAt, t, c⟩ := by
    simp only [BlogAPI.Bind, BlogAPI.Post.zero, ht, hc, Option.getD_some]
    cases o.DeletedAt <;> rfl
  have hcreate := BlogAPI.createPost_bound (BlogAPI.gorm now) db _ (.json o) hbind
  have hvalid : ¬ (t = "" ∨ c = "") := by rw [not_or]; exact ⟨hT, hC⟩
  rw [if_neg hvalid, BlogAPI.gorm_Create] at hcreate
  have hw : (BlogAPI.createPost (BlogAPI.gorm now) (.json o) db).2.writes
      = db.writes ++
        [.Create ⟨o.ID.getD 0, o.CreatedAt.getD 0, o.UpdatedAt.getD 0, o.DeletedAt, t, c⟩] := by
    rw [hcreate, ← BlogAPI.gormCreate_writes now db _]
    generalize BlogAPI.gormCreate now db _ = out
    obtain ⟨r, s1⟩ := out
    cases r <;> rfl
  refine ⟨hw, ?_⟩
  intro h1 h2 h3 h4
  rw [h1, h2, h3, h4] at hw hcreate
  refine ⟨hw, ?_⟩
  intro hf
  rw [hcreate]
  simp only [Option.getD_none, BlogAPI.gormCreate, db.fault_none _ hf]
  rw [BlogAPI.DB.insert_zero _ now _ rfl]
  rfl

/-- Witness of C9 (amended): title "a", content "b" and the key `ID: 7`, on the
empty store. -/
theorem createPost_candidate_witness :
    (BlogAPI.createPost (BlogAPI.gorm 5)
        (.json ⟨some 7, none, none, none, some "a", some "b"⟩) ⟨[], 0, [], []⟩).2.writes
      = [] ++ [.Create ⟨7, 0, 0, none, "a", "b"⟩] :=
  (createPost_candidate 5 ⟨[], 0, [], []⟩ ⟨some 7, none, none, none, some "a", some "b"⟩
    "a" "b" rfl rfl (by decide) (by decide)).1

/-- C10, counterexample.  `POST /todos` with a body that has no title key, on the
empty store: the answer is 201 and a row with the empty title is inserted. -/
theorem postTodos_missing_title_accepted :
    GinListAPI.postTodos GinListAPI.sqlite (.json ⟨none, none, some true⟩) ⟨[], 0, [], []⟩
      = (⟨201, .todo ⟨1, "", true⟩⟩, ⟨[⟨1, "", true⟩], 1, [], [.Insert "" true]⟩) := by
  decide

/-- C10, amended.  `POST /todos` checks nothing about the title.  A body that
cannot be decoded is answered with 400 and the store state is unchanged,
whatever the store is; a decoded body whose title is missing or empty is, on
the SQLite store without injected failure, answered with 201 and a row with
the empty title is inserted under the next row id. -/
theorem postTodos_no_title_check :
    (∀ (σ : Type) (S : GinListAPI.Store σ) (s : σ),
        GinListAPI.postTodos S .malformed s = (⟨400, .error "invalid input"⟩, s)) ∧
    (∀ (db : GinListAPI.DB) (o : GinListAPI.TodoJSON), db.faults = [] →
        (o.title = none ∨ o.title = some "") →
        GinListAPI.postTodos GinListAPI.sqlite (.json o) db
          = (⟨201, .todo ⟨db.nextID, "", o.completed.getD false⟩⟩,
              { db with
                rows := db.rows ++ [⟨db.nextID, "", o.completed.getD false⟩]
                seq := db.nextID
                writes := db.writes ++ [.Insert "" (o.completed.getD false)] })) := by
  constructor
  · intro σ S s
    rfl
  · intro db o hf ht
    have htitle : o.title.getD "" = "" := by
      rcases ht with h | h <;> simp [h]
    rw [GinListAPI.postTodos_json db o hf, htitle]
    rfl

/-- Witness of C10 (amended): an empty title on the store holding one todo. -/
theorem postTodos_no_title_check_witness :
    GinListAPI.postTodos GinListAPI.sqlite (.json ⟨none, some "", none⟩)
        ⟨[⟨1, "a", true⟩], 1, [], []⟩
      = (⟨201, .todo ⟨2, "", false⟩⟩,
          ⟨[⟨1, "a", true⟩, ⟨2, "", false⟩], 2, [], [.Insert "" false]⟩) :=
  postTodos_no_title_check.2 ⟨[⟨1, "a", true⟩], 1, [], []⟩ ⟨none, some "", none⟩ rfl
    (by decide)

/-- C11. Blog post service, malformed id.  For a path id that is not the
base-10 text of an unsigned 64-bit integer, `getPostByID`, `updatePost` (with
any body) and `deletePost` answer 400 `Invalid post ID format` and return the
store state as it was, whatever the store is: no call reaches it.  For a path
id that is such a text, none of them gives that answer: `getPostByID` and
`deletePost` do not answer 400 at all, and `updatePost` answers 400 only with
the messages of a bad body. -/
theorem blog_malformed_id :
    (∀ (σ : Type) (S : BlogAPI.Store σ) (idStr : String) (s : σ),
        ¬ strconv.IsUint64Text idStr →
        BlogAPI.getPostByID S idStr s = ⟨400, .text "Invalid post ID format"⟩ ∧
        (∀ body, BlogAPI.updatePost S idStr body s
          = (⟨400, .text "Invalid post ID format"⟩, s)) ∧
        BlogAPI.deletePost S idStr s = (⟨400, .text "Invalid post ID format"⟩, s)) ∧
    (∀ (σ : Type) (S : BlogAPI.Store σ) (idStr : String) (s : σ),
        strconv.IsUint64Text idStr →
        (BlogAPI.getPostByID S idStr s).status ≠ 400 ∧
        (∀ body, (BlogAPI.updatePost S idStr body s).1
          ≠ ⟨400, .text "Invalid post ID format"⟩) ∧
        (BlogAPI.deletePost S idStr s).1.status ≠ 400) := by
  constructor
  · intro σ S idStr s h
    have hp := (strconv.ParseUint_eq_none_iff idStr).mpr h
    refine ⟨?_, ?_, ?_⟩
    · simp [BlogAPI.getPostByID, hp]
    · intro body
      simp [BlogAPI.updatePost, hp]
    · simp [BlogAPI.deletePost, hp]
  · intro σ S idStr s h
    have hp : strconv.ParseUint idStr = some (strconv.decimalValue idStr.data) := by
      rw [strconv.ParseUint_eq, if_pos h]
    refine ⟨?_, ?_, ?_⟩
    · simp only [BlogAPI.getPostByID, hp]
      cases hf : S.First s (strconv.decimalValue idStr.data) with
      | ok p => simp
      | error e => cases e <;> simp
    · intro body
      simp only [BlogAPI.updatePost, hp]
      cases hf : S.First s (strconv.decimalValue idStr.data) with
      | error e => cases e <;> simp
      | ok p =>
        simp only
        cases hb : BlogAPI.Bind p body with
        | none => simp
        | some q =>
          simp only
          split_ifs
          · simp
          · generalize S.Save s q = out
            obtain ⟨r, s1⟩ := out
            cases r <;> simp
    · simp only [BlogAPI.deletePost, hp]
      generalize S.Delete s _ = out
      obtain ⟨r, s1⟩ := out
      cases r with
      | error e => simp
      | ok n =>
        simp only
        split_ifs <;> simp

/-- Witness of C11: the empty string, a word, a leading sign and `2^64` are
answered with 400; `2^64 - 1` is not. -/
theorem blog_malformed_id_witness :
    (BlogAPI.getPostByID (BlogAPI.gorm 5) "" ⟨[⟨1, 2, 2, none, "a", "b"⟩], 1, [], []⟩
        = ⟨400, .text "Invalid post ID format"⟩ ∧
      BlogAPI.getPostByID (BlogAPI.gorm 5) "abc" ⟨[⟨1, 2, 2, none, "a", "b"⟩], 1, [], []⟩
        = ⟨400, .text "Invalid post ID format"⟩ ∧
      BlogAPI.deletePost (BlogAPI.gorm 5) "+1" ⟨[⟨1, 2, 2, none, "a", "b"⟩], 1, [], []⟩
        = (⟨400, .text "Invalid post ID format"⟩, ⟨[⟨1, 2, 2, none, "a", "b"⟩], 1, [], []⟩) ∧
      BlogAPI.getPostByID (BlogAPI.gorm 5) "18446744073709551616"
          ⟨[⟨1, 2, 2, none, "a", "b"⟩], 1, [], []⟩
        = ⟨400, .text "Invalid post ID format"⟩) ∧
    (BlogAPI.getPostByID (BlogAPI.gorm 5) "18446744073709551615"
        ⟨[⟨1, 2, 2, none, "a", "b"⟩], 1, [], []⟩).status ≠ 400 :=
  ⟨⟨(blog_malformed_id.1 _ (BlogAPI.gorm 5) "" _ (by decide)).1,
      (blog_malformed_id.1 _ (BlogAPI.gorm 5) "abc" _ (by decide)).1,
      (blog_malformed_id.1 _ (BlogAPI.gorm 5) "+1" _ (by decide)).2.2,
      (blog_malformed_id.1 _ (BlogAPI.gorm 5) "18446744073709551616" _ (by decide)).1⟩,
    (blog_malformed_id.2 _ (BlogAPI.gorm 5) "18446744073709551615" _ (by decide)).1⟩

/-- C13, counterexample.  Todo 1 is in the table when the existence query runs
and is removed by a second client before the `DELETE`: the `DELETE` succeeds
and reports 0 rows affected, and the route answers 204, not 404. -/
theorem deleteTodo_zero_rows_answers_204 :
    GinListAPI.sqliteRaced.GetID ⟨[⟨1, "a", false⟩], 1, [], []⟩ 1 = .ok 1 ∧
    (GinListAPI.sqliteRaced.ExecDelete ⟨[⟨1, "a", false⟩], 1, [], []⟩ 1).1
      = .ok ⟨.ok 1, .ok 0⟩ ∧
    GinListAPI.deleteTodoByID GinListAPI.sqliteRaced "1" ⟨[⟨1, "a", false⟩], 1, [], []⟩
      = (⟨204, .empty⟩, ⟨[], 1, [], [.Delete 1]⟩) := by
  decide

/-- C13, amended.  `DELETE /todos/:id`, for a path id that parses.  Not-found
is decided by the existence query that precedes the `DELETE`: when it reports
no row the answer is 404 and the state is unchanged; when it finds the id and
the `DELETE` succeeds the answer is 204 whatever the store reports as rows
affected, 0 included.  On the SQLite store used by one client and without
injected failure, a `DELETE` that follows a successful existence query never
reports 0. -/
theorem deleteTodo_not_found_by_query :
    (∀ (σ : Type) (S : GinListAPI.Store σ) (idSTR : String) (id : Int) (s : σ),
        strconv.Atoi idSTR = some id → S.GetID s id = .error .ErrNoRows →
        GinListAPI.deleteTodoByID S idSTR s = (⟨404, .error "Todo not found"⟩, s)) ∧
    (∀ (σ : Type) (S : GinListAPI.Store σ) (idSTR : String) (id k : Int) (s s1 : σ)
        (r : GinListAPI.ExecResult),
        strconv.Atoi idSTR = some id → S.GetID s id = .ok k →
        S.ExecDelete s id = (.ok r, s1) →
        GinListAPI.deleteTodoByID S idSTR s = (⟨204, .empty⟩, s1)) ∧
    (∀ (db : GinListAPI.DB) (id k : Int), db.faults = [] →
        GinListAPI.sqlite.GetID db id = .ok k →
        ∃ r, (GinListAPI.sqlite.ExecDelete db id).1 = .ok r ∧ r.RowsAffected ≠ .ok 0) := by
  refine ⟨?_, ?_, ?_⟩
  · intro σ S idSTR id s hid hget
    exact GinListAPI.deleteTodoByID_absent S idSTR id s hid hget
  · intro σ S idSTR id k s s1 r hid hget hdel
    rw [GinListAPI.deleteTodoByID_found S idSTR id k s hid hget, hdel]
  · intro db id k hf hget
    have hrow := GinListAPI.sqliteGetID_ok db id k hget
    have hl : ∀ (w : GinListAPI.Write) (c : GinListAPI.Call), (db.logged w).fault c = none :=
      fun w c => GinListAPI.DB.todos_fault_none _ _ (by simpa using hf)
    have hcount : ∀ (w : GinListAPI.Write), (db.logged w).count id ≠ 0 := fun w =>
      GinListAPI.DB.count_ne_zero _ id (by simpa using hrow)
    refine ⟨⟨.ok db.seq, .ok (db.count id)⟩, ?_, ?_⟩
    · simp only [GinListAPI.sqlite_ExecDelete, GinListAPI.sqliteExecDelete,
        db.todos_fault_none _ hf, GinListAPI.DB.report, hl]
      rfl
    · simp only [ne_eq, GinListAPI.Result.ok.injEq]
      exact GinListAPI.DB.count_ne_zero db id hrow

/-- Witness of C13 (amended): the three cases on concrete stores. -/
theorem deleteTodo_not_found_by_query_witness :
    GinListAPI.deleteTodoByID GinListAPI.sqlite "7" ⟨[⟨1, "a", false⟩], 1, [], []⟩
      = (⟨404, .error "Todo not found"⟩, ⟨[⟨1, "a", false⟩], 1, [], []⟩) ∧
    GinListAPI.deleteTodoByID GinListAPI.sqliteRaced "1" ⟨[⟨1, "a", false⟩], 1, [], []⟩
      = (⟨204, .empty⟩, ⟨[], 1, [], [.Delete 1]⟩) ∧
    (∃ r, (GinListAPI.sqlite.ExecDelete ⟨[⟨1, "a", false⟩], 1, [], []⟩ 1).1 = .ok r ∧
      r.RowsAffected ≠ .ok 0) :=
  ⟨deleteTodo_not_found_by_query.1 _ GinListAPI.sqlite "7" 7 _ (by decide) (by decide),
    deleteTodo_not_found_by_query.2.1 _ GinListAPI.sqliteRaced "1" 1 1 _ _ ⟨.ok 1, .ok 0⟩
      (by decide) (by decide) (by decide),
    deleteTodo_not_found_by_query.2.2 ⟨[⟨1, "a", false⟩], 1, [], []⟩ 1 1 rfl (by decide)⟩

/-- C14. Storage failures are opaque, in the five handlers of the blog post
service.  Whenever a store call returns an error that is not
`ErrRecordNotFound`, the answer is 500 with the fixed text of the handler,
in which the error does not occur (`Find`, `Create`, `Save` and `Delete`
answer so on every error).  Hence two runs against stores whose call outcomes
differ at most in which such error is returned give the same response. -/
theorem storage_failure_not_leaked :
    ((∀ (σ : Type) (S : BlogAPI.Store σ) (s : σ) (e : BlogAPI.DBError),
        S.Find s = .error e →
        BlogAPI.getAllPosts S s = ⟨500, .text "Failed to fetch posts"⟩) ∧
      (∀ (σ : Type) (S : BlogAPI.Store σ) (idStr : String) (id : Nat) (s : σ) (msg : String),
        strconv.ParseUint idStr = some id → S.First s id = .error (.other msg) →
        BlogAPI.getPostByID S idStr s = ⟨500, .text "Failed to fetch post"⟩) ∧
      (∀ (σ : Type) (S : BlogAPI.Store σ) (body : BlogAPI.Body) (post : BlogAPI.Post)
        (s s1 : σ) (e : BlogAPI.DBError),
        BlogAPI.Bind BlogAPI.Post.zero body = some post → post.Title ≠ "" →
        post.Content ≠ "" → S.Create s post = (.error e, s1) →
        BlogAPI.createPost S body s = (⟨500, .text "Failed to create post"⟩, s1)) ∧
      (∀ (σ : Type) (S : BlogAPI.Store σ) (idStr : String) (id : Nat) (body : BlogAPI.Body)
        (s : σ) (msg : String),
        strconv.ParseUint idStr = some id → S.First s id = .error (.other msg) →
        BlogAPI.updatePost S idStr body s
          = (⟨500, .text "Failed to find post for update"⟩, s)) ∧
      (∀ (σ : Type) (S : BlogAPI.Store σ) (idStr : String) (id : Nat) (body : BlogAPI.Body)
        (stored post : BlogAPI.Post) (s s1 : σ) (e : BlogAPI.DBError),
        strconv.ParseUint idStr = some id → S.First s id = .ok stored →
        BlogAPI.Bind stored body = some post → post.Title ≠ "" → post.Content ≠ "" →
        S.Save s post = (.error e, s1) →
        BlogAPI.updatePost S idStr body s = (⟨500, .text "Failed to update post"⟩, s1)) ∧
      (∀ (σ : Type) (S : BlogAPI.Store σ) (idStr : String) (id : Nat) (s s1 : σ)
        (e : BlogAPI.DBError),
        strconv.ParseUint idStr = some id → S.Delete s id = (.error e, s1) →
        BlogAPI.deletePost S idStr s = (⟨500, .text "Failed to delete post"⟩, s1))) ∧
    (∀ (σ1 σ2 : Type) (S1 : BlogAPI.Store σ1) (S2 : BlogAPI.Store σ2) (s1 : σ1) (s2 : σ2),
      ((S1.Find s1).sameButError (S2.Find s2) →
        BlogAPI.getAllPosts S1 s1 = BlogAPI.getAllPosts S2 s2) ∧
      ((∀ id, (S1.First s1 id).sameButError (S2.First s2 id)) →
        ∀ idStr, BlogAPI.getPostByID S1 idStr s1 = BlogAPI.getPostByID S2 idStr s2) ∧
      ((∀ post, (S1.Create s1 post).1.sameButError (S2.Create s2 post).1) →
        ∀ body, (BlogAPI.createPost S1 body s1).1 = (BlogAPI.createPost S2 body s2).1) ∧
      ((∀ id, (S1.First s1 id).sameButError (S2.First s2 id)) →
        (∀ post, (S1.Save s1 post).1.sameButError (S2.Save s2 post).1) →
        ∀ idStr body,
          (BlogAPI.updatePost S1 idStr body s1).1 = (BlogAPI.updatePost S2 idStr body s2).1) ∧
      ((∀ id, (S1.Delete s1 id).1.sameButError (S2.Delete s2 id).1) →
        ∀ idStr, (BlogAPI.deletePost S1 idStr s1).1 = (BlogAPI.deletePost S2 idStr s2).1)) := by
  constructor
  · refine ⟨?_, ?_, ?_, ?_, ?_, ?_⟩
    · intro σ S s e h
      simp [BlogAPI.getAllPosts, h]
    · intro σ S idStr id s msg hid h
      simp [BlogAPI.getPostByID, hid, h]
    · intro σ S body post s s1 e hb hT hC h
      rw [BlogAPI.createPost_bound S s post body hb, if_neg (by rw [not_or]; exact ⟨hT, hC⟩), h]
    · intro σ S idStr id body s msg hid h
      simp [BlogAPI.updatePost, hid, h]
    · intro σ S idStr id body stored post s s1 e hid hget hb hT hC h
      rw [BlogAPI.updatePost_bound S idStr id s stored post body hid hget hb,
        if_neg (by rw [not_or]; exact ⟨hT, hC⟩), h]
    · intro σ S idStr id s s1 e hid h
      rw [BlogAPI.deletePost_parsed S idStr id s hid, h]
  · intro σ1 σ2 S1 S2 s1 s2
    refine ⟨?_, ?_, ?_, ?_, ?_⟩
    · intro h
      unfold BlogAPI.getAllPosts
      cases h1 : S1.Find s1 <;> cases h2 : S2.Find s2 <;>
        simp_all [BlogAPI.Result.sameButError]
    · intro h idStr
      unfold BlogAPI.getPostByID
      cases hid : strconv.ParseUint idStr with
      | none => rfl
      | some id =>
        have hr := h id
        simp only
        cases h1 : S1.First s1 id with
        | ok a =>
          cases h2 : S2.First s2 id with
          | ok b => simp_all [BlogAPI.Result.sameButError]
          | error e => simp_all [BlogAPI.Result.sameButError]
        | error e1 =>
          cases h2 : S2.First s2 id with
          | ok b => cases e1 <;> simp_all [BlogAPI.Result.sameButError]
          | error e2 => cases e1 <;> cases e2 <;> simp_all [BlogAPI.Result.sameButError]
    · intro h body
      unfold BlogAPI.createPost
      cases hb : BlogAPI.Bind BlogAPI.Post.zero body with
      | none => rfl
      | some post =>
        simp only
        split_ifs
        · rfl
        · have hr := h post
          generalize S1.Create s1 post = o1 at hr
          generalize S2.Create s2 post = o2 at hr
          obtain ⟨r1, t1⟩ := o1
          obtain ⟨r2, t2⟩ := o2
          cases r1 <;> cases r2 <;> simp_all [BlogAPI.Result.sameButError]
    · intro hF hS idStr body
      unfold BlogAPI.updatePost
      cases hid : strconv.ParseUint idStr with
      | none => rfl
      | some id =>
        have hr := hF id
        simp only
        cases h1 : S1.First s1 id with
        | ok a =>
          cases h2 : S2.First s2 id with
          | error e => simp_all [BlogAPI.Result.sameButError]
          | ok b =>
            have hab : a = b := by simpa [h1, h2, BlogAPI.Result.sameButError] using hr
            subst hab
            simp only
            cases hb : BlogAPI.Bind a body with
            | none => rfl
            | some post =>
              simp only
              split_ifs
              · rfl
              · have hs := hS post
                generalize S1.Save s1 post = o1 at hs
                generalize S2.Save s2 post = o2 at hs
                obtain ⟨r1, t1⟩ := o1
                obtain ⟨r2, t2⟩ := o2
                cases r1 <;> cases r2 <;> simp_all [BlogAPI.Result.sameButError]
        | error e1 =>
          cases h2 : S2.First s2 id with
          | ok b => cases e1 <;> simp_all [BlogAPI.Result.sameButError]
          | error e2 => cases e1 <;> cases e2 <;> simp_all [BlogAPI.Result.sameButError]
    · intro h idStr
      unfold BlogAPI.deletePost
      cases hid : strconv.ParseUint idStr with
      | none => rfl
      | some id =>
        have hr := h id
        simp only
        generalize S1.Delete s1 id = o1 at hr
        generalize S2.Delete s2 id = o2 at hr
        obtain ⟨r1, t1⟩ := o1
        obtain ⟨r2, t2⟩ := o2
        cases r1 <;> cases r2 <;> simp_all [BlogAPI.Result.sameButError]
        split_ifs <;> rfl

/-- Witness of C14: the lookup of post 1 fails, with `disk I/O error` in one
run and with `database is locked` in the other; both answers are the same
500. -/
theorem storage_failure_not_leaked_witness :
    BlogAPI.getPostByID (BlogAPI.gorm 5) "1"
        ⟨[⟨1, 2, 2, none, "a", "b"⟩], 1, [(.First, "disk I/O error")], []⟩
      = ⟨500, .text "Failed to fetch post"⟩ ∧
    BlogAPI.getPostByID (BlogAPI.gorm 5) "1"
        ⟨[⟨1, 2, 2, none, "a", "b"⟩], 1, [(.First, "database is locked")], []⟩
      = ⟨500, .text "Failed to fetch post"⟩ :=
  ⟨storage_failure_not_leaked.1.2.1 _ (BlogAPI.gorm 5) "1" 1 _ "disk I/O error" (by decide)
      (by decide),
    storage_failure_not_leaked.1.2.1 _ (BlogAPI.gorm 5) "1" 1 _ "database is locked" (by decide)
      (by decide)⟩

/-- C15, counterexample.  On the empty blog store a body with title, content and
a `DeletedAt` key is created with 201, so the resource is in the ledger of
created and not deleted resources, but `getAllPosts` answers the empty list:
the row was inserted soft-deleted. -/
theorem created_with_deletedAt_not_listed :
    (BlogAPI.serveAll ⟨[], 0, [], []⟩ []
        [.create 5 (.json ⟨none, none, none, some 3, some "a", some "b"⟩)]).2
      = [⟨1, 5, 5, some 3, "a", "b"⟩] ∧
    BlogAPI.getAllPosts (BlogAPI.gorm 6)
        (BlogAPI.serveAll ⟨[], 0, [], []⟩ []
          [.create 5 (.json ⟨none, none, none, some 3, some "a", some "b"⟩)]).1
      = ⟨200, .posts []⟩ := by
  decide

/-- C15, amended.  List completeness.  Blog post service: starting from the
empty store without injected failure, after any sequence of Create and
Delete requests in which no Create body carries the `DeletedAt` key,
`getAllPosts` answers 200 with a list that holds, order aside, exactly the
resources that were created (the bodies of the 201 answers) and not later
deleted (by a Delete answered with 204), and no two of them share an id.
Console program: run on the empty table it reads back the records 1, 2, 3
after the inserts and, once record 2 is deleted, ends with a count of 2 and
a table of exactly the records 1 and 3. -/
theorem list_completeness :
    (∀ (reqs : List BlogAPI.Request), (∀ r ∈ reqs, r.setsDeletedAt = false) →
      ∀ (now : Nat),
        (∃ ps,
          BlogAPI.getAllPosts (BlogAPI.gorm now)
              (BlogAPI.serveAll ⟨[], 0, [], []⟩ [] reqs).1 = ⟨200, .posts ps⟩ ∧
            ps.Perm (BlogAPI.serveAll ⟨[], 0, [], []⟩ [] reqs).2) ∧
        ((BlogAPI.serveAll ⟨[], 0, [], []⟩ [] reqs).2.map (fun p => p.ID)).Nodup) ∧
    ConsoleCRUD.main ⟨[], 0, []⟩
      = .finished
          { items := [⟨1, "item1", 10⟩, ⟨2, "item2", 20⟩, ⟨3, "item3", 30⟩]
            updated := some 1
            updatedItem := ⟨1, "item1", 15⟩
            deleted := some 1
            count := 2 }
          ⟨[⟨1, "item1", 15⟩, ⟨3, "item3", 30⟩], 3, []⟩ := by
  constructor
  · intro reqs hplain now
    have hinit : BlogAPI.Agrees ⟨[], 0, [], []⟩ [] := ⟨rfl, rfl, List.nodup_nil⟩
    obtain ⟨hf, hlive, hnodup⟩ := BlogAPI.serveAll_agrees reqs _ _ hinit hplain
    constructor
    · refine ⟨(List.filter BlogAPI.live
          (BlogAPI.serveAll ⟨[], 0, [], []⟩ [] reqs).1.rows).insertionSort BlogAPI.byRowid,
        ?_, ?_⟩
      · simp only [BlogAPI.getAllPosts, BlogAPI.gorm_Find, BlogAPI.gormFind,
          BlogAPI.DB.fault_none _ _ hf]
      · rw [← hlive]
        exact List.perm_insertionSort _ _
    · rw [← hlive]
      exact hnodup.sublist ((List.filter_sublist _).map _)
  · decide

/-- Witness of C15 (amended): three posts are created under the ids 7, 8 and 5
chosen by their bodies, post 8 is deleted, and `getAllPosts` returns the
posts 5 and 7, which are the created and not deleted ones in another
order. -/
theorem list_completeness_witness :
    (BlogAPI.serveAll ⟨[], 0, [], []⟩ []
        [.create 1 (.json ⟨some 7, none, none, none, some "a", some "x"⟩),
          .create 2 (.json ⟨some 8, none, none, none, some "b", some "y"⟩),
          .create 3 (.json ⟨some 5, none, none, none, some "c", some "z"⟩),
          .delete 4 "8"]).2
      = [⟨7, 1, 1, none, "a", "x"⟩, ⟨5, 3, 3, none, "c", "z"⟩] ∧
    BlogAPI.getAllPosts (BlogAPI.gorm 9)
        (BlogAPI.serveAll ⟨[], 0, [], []⟩ []
          [.create 1 (.json ⟨some 7, none, none, none, some "a", some "x"⟩),
            .create 2 (.json ⟨some 8, none, none, none, some "b", some "y"⟩),
            .create 3 (.json ⟨some 5, none, none, none, some "c", some "z"⟩),
            .delete 4 "8"]).1
      = ⟨200, .posts [⟨5, 3, 3, none, "c", "z"⟩, ⟨7, 1, 1, none, "a", "x"⟩]⟩ ∧
    (∃ ps,
      BlogAPI.getAllPosts (BlogAPI.gorm 9)
          (BlogAPI.serveAll ⟨[], 0, [], []⟩ []
            [.create 1 (.json ⟨some 7, none, none, none, some "a", some "x"⟩),
              .create 2 (.json ⟨some 8, none, none, none, some "b", some "y"⟩),
              .create 3 (.json ⟨some 5, none, none, none, some "c", some "z"⟩),
              .delete 4 "8"]).1 = ⟨200, .posts ps⟩ ∧
        ps.Perm
          (BlogAPI.serveAll ⟨[], 0, [], []⟩ []
            [.create 1 (.json ⟨some 7, none, none, none, some "a", some "x"⟩),
              .create 2 (.json ⟨some 8, none, none, none, some "b", some "y"⟩),
              .create 3 (.json ⟨some 5, none, none, none, some "c", some "z"⟩),
              .delete 4 "8"]).2) :=
  ⟨by decide, by decide,
    (list_completeness.1
      [.create 1 (.json ⟨some 7, none, none, none, some "a", some "x"⟩),
        .create 2 (.json ⟨some 8, none, none, none, some "b", some "y"⟩),
        .create 3 (.json ⟨some 5, none, none, none, some "c", some "z"⟩),
        .delete 4 "8"] (by decide) 9).1⟩

/-- C16. `PUT /todos/:id` is a full overwrite keyed by the path id.  For a path
id that parses and is found and a decoded body, the `UPDATE` is executed with
the title and completed of the body (the empty string and `false` for a
missing key) and with the path id, whatever the store is and with no check
of the values.  On the SQLite store without injected failure the answer is
200 with the todo of the path id carrying these values, the rows with the
path id are rewritten with them, no other row changes, and the id key of the
body plays no part. -/
theorem putTodo_full_overwrite :
    (∀ (σ : Type) (S : GinListAPI.Store σ) (idSTR : String) (id k : Int)
        (o : GinListAPI.TodoJSON) (s : σ),
        strconv.Atoi idSTR = some id → S.GetID s id = .ok k →
        GinListAPI.putTodoByID S idSTR (.json o) s =
          match S.ExecUpdate s (o.title.getD "") (o.completed.getD false) id with
          | (.error _, s1) => (⟨500, .error "Failed to update todo"⟩, s1)
          | (.ok result, s1) =>
            if result.RowsAffected = .ok 0 then
              (⟨404, .error "Todo not found after check"⟩, s1)
            else
              match S.GetTodo s1 id with
              | .error _ => (⟨500, .error "Failed to retrieve updated todo"⟩, s1)
              | .ok updatedTodo => (⟨200, .todo updatedTodo⟩, s1)) ∧
    (∀ (db : GinListAPI.DB) (idSTR : String) (id : Int) (o : GinListAPI.TodoJSON),
        strconv.Atoi idSTR = some id → db.faults = [] → (∃ t ∈ db.rows, t.ID = id) →
        GinListAPI.putTodoByID GinListAPI.sqlite idSTR (.json o) db =
          (⟨200, .todo ⟨id, o.title.getD "", o.completed.getD false⟩⟩,
            { db with
              rows := db.rows.map (fun r =>
                if r.ID = id then
                  { r with Title := o.title.getD "", Completed := o.completed.getD false }
                else r)
              writes := db.writes ++
                [.Update (o.title.getD "") (o.completed.getD false) id] })) := by
  have hgen : ∀ (σ : Type) (S : GinListAPI.Store σ) (idSTR : String) (id k : Int)
      (o : GinListAPI.TodoJSON) (s : σ),
      strconv.Atoi idSTR = some id → S.GetID s id = .ok k →
      GinListAPI.putTodoByID S idSTR (.json o) s =
        match S.ExecUpdate s (o.title.getD "") (o.completed.getD false) id with
        | (.error _, s1) => (⟨500, .error "Failed to update todo"⟩, s1)
        | (.ok result, s1) =>
          if result.RowsAffected = .ok 0 then
            (⟨404, .error "Todo not found after check"⟩, s1)
          else
            match S.GetTodo s1 id with
            | .error _ => (⟨500, .error "Failed to retrieve updated todo"⟩, s1)
            | .ok updatedTodo => (⟨200, .todo updatedTodo⟩, s1) := by
    intro σ S idSTR id k o s hid hget
    simp only [GinListAPI.putTodoByID, hid, hget, GinListAPI.ShouldBindJSON,
      GinListAPI.Todo.zero]
  refine ⟨hgen, ?_⟩
  intro db idSTR id o hid hf hrow
  have hget := GinListAPI.sqliteGetID_present db id (db.todos_fault_none _ hf) hrow
  rw [hgen _ GinListAPI.sqlite idSTR id id o db hid hget]
  have hl : ∀ (w : GinListAPI.Write) (c : GinListAPI.Call), (db.logged w).fault c = none :=
    fun w c => GinListAPI.DB.todos_fault_none _ _ (by simpa using hf)
  have hcount : ∀ (w : GinListAPI.Write), (db.logged w).count id ≠ 0 := fun w =>
    GinListAPI.DB.count_ne_zero _ id (by simpa using hrow)
  have hfind := GinListAPI.find_updateRows db.rows (o.title.getD "") (o.completed.getD false)
    id hrow
  have hl2 : ∀ (w : GinListAPI.Write) (t : String) (b : Bool) (c : GinListAPI.Call),
      ((db.logged w).updateRows t b id).fault c = none := fun w t b c => hl w c
  have hfind2 : ∀ (w : GinListAPI.Write),
      ((db.logged w).updateRows (o.title.getD "") (o.completed.getD false) id).rows.find?
        (fun r => r.ID = id)
        = some { ID := id, Title := o.title.getD "", Completed := o.completed.getD false } :=
    fun _ => hfind
  simp only [GinListAPI.sqlite_ExecUpdate, GinListAPI.sqliteExecUpdate,
    db.todos_fault_none _ hf, GinListAPI.DB.report, hl, GinListAPI.Result.ok.injEq, hcount,
    if_false, GinListAPI.sqlite_GetTodo, GinListAPI.sqliteGetTodo, hl2, hfind2]
  rfl

/-- Witness of C16: `PUT /todos/1` with a body that has only the key `id: 9`,
on a store holding todos 1 and 2. -/
theorem putTodo_full_overwrite_witness :
    GinListAPI.putTodoByID GinListAPI.sqlite "1" (.json ⟨some 9, none, none⟩)
        ⟨[⟨1, "a", true⟩, ⟨2, "b", true⟩], 2, [], []⟩
      = (⟨200, .todo ⟨1, "", false⟩⟩,
          ⟨[⟨1, "", false⟩, ⟨2, "b", true⟩], 2, [], [.Update "" false 1]⟩) :=
  putTodo_full_overwrite.2 ⟨[⟨1, "a", true⟩, ⟨2, "b", true⟩], 2, [], []⟩ "1" 1
    ⟨some 9, none, none⟩ (by decide) rfl ⟨⟨1, "a", true⟩, by simp, rfl⟩

/-- C17. GraphQL todo list.  In every state reached from the initial one by
`addTodo` mutations the ids of the todos are pairwise distinct and each is
the decimal text of a positive integer smaller than `nextID`.  A call of
`addTodo` with a text returns the todo made of the text of `nextID`, the
given text and `Done = false`, puts it at the end of `todos` leaving the
earlier ones as they are, and adds 1 to `nextID`. -/
theorem graphql_addTodo_ids :
    (∀ (st : GraphQLTodo.State), GraphQLTodo.Reachable st →
      (st.todos.map (fun t => t.ID)).Nodup ∧
      ∀ t ∈ st.todos, ∃ k : Nat, 0 < k ∧ (k : Int) < st.nextID ∧
        t.ID = strconv.Itoa (k : Int) ∧ strconv.decimalValue t.ID.data = k) ∧
    (∀ (st : GraphQLTodo.State) (text : String),
      GraphQLTodo.addTodo st (some text)
        = (some ⟨strconv.Itoa st.nextID, text, false⟩,
            ⟨st.todos ++ [⟨strconv.Itoa st.nextID, text, false⟩], st.nextID + 1⟩)) := by
  constructor
  · intro st hst
    obtain ⟨hn, hids⟩ := GraphQLTodo.reachable_nextID st hst
    constructor
    · rw [hids]
      apply List.Nodup.map _ (List.nodup_range _)
      intro a b hab
      have hcast : ∀ i : Nat, ((i : Int) + 1) = ((i + 1 : Nat) : Int) := fun i => by
        push_cast; rfl
      simp only [hcast] at hab
      have := strconv.Itoa_injective _ _ hab
      omega
    · intro t ht
      have hmem : t.ID ∈ st.todos.map (fun t => t.ID) := List.mem_map_of_mem _ ht
      rw [hids, List.mem_map] at hmem
      obtain ⟨i, hi, hti⟩ := hmem
      rw [List.mem_range] at hi
      have hcast : ((i : Int) + 1) = ((i + 1 : Nat) : Int) := by push_cast; rfl
      refine ⟨i + 1, by omega, by rw [hn]; push_cast; omega, ?_, ?_⟩
      · rw [← hti, hcast]
      · rw [← hti, hcast]
        exact strconv.decimalValue_Itoa (i + 1)
  · intro st text
    rfl

/-- Witness of C17: the state after one `addTodo` on the initial state. -/
theorem graphql_addTodo_ids_witness :
    (GraphQLTodo.addTodo GraphQLTodo.init (some "x")).2
      = ⟨[⟨"1", "Hello World!", true⟩, ⟨"2", "Hello Me!", true⟩, ⟨"3", "Hello You!", false⟩,
          ⟨"4", "x", false⟩], 5⟩ ∧
    ((GraphQLTodo.addTodo GraphQLTodo.init (some "x")).2.todos.map (fun t => t.ID)).Nodup :=
  ⟨by decide,
    (graphql_addTodo_ids.1 _ (GraphQLTodo.Reachable.addTodo _ (some "x") .init)).1⟩
